import Mathlib

/-!
Shallow embedding of the maidsafe/brb repository: the deterministic BRB engine
(src/deterministic_brb.rs) and the generational membership engine
(brb_membership/src/brb_membership.rs).

Modelling conventions:
* Actors are natural numbers (the code uses public keys, opaque and totally ordered).
* A signature is the pair (signer, digest) where the digest is produced by an
  abstract encoding function; sign and verify are the idealized versions of the
  ed25519 operations, and bincode serialization is modelled as total, so the
  Encoding error variant is never produced.
* BTreeMap and BTreeSet become sorted association lists and sorted duplicate-free
  lists; HashMap (used only for pending_proof, which is never iterated) becomes an
  association list in insertion order.
* The data type being replicated (the BRBDataType parameter) is kept abstract:
  its state type, validate and apply functions are parameters; its operation
  alphabet is Nat.
* Rust methods taking &mut self are functions from the state returning the new
  state paired with the Result; methods on &self are pure functions.
-/

abbrev Actor := Nat

abbrev Generation := Nat

/-- Idealized signature: the signer together with the digest of the signed data. -/
abbrev Sig := Nat × Nat

/-- Sorted-map lookup, modelling BTreeMap::get (the list is sorted by key). -/
def mapLookup {α : Type} : List (Nat × α) → Nat → Option α
  | [], _ => none
  | (k', v) :: rest, k => if k = k' then some v else mapLookup rest k

/-- Sorted-map insert-or-replace, modelling BTreeMap::insert. -/
def mapInsert {α : Type} : List (Nat × α) → Nat → α → List (Nat × α)
  | [], k, v => [(k, v)]
  | (k', v') :: rest, k, v =>
    if k < k' then (k, v) :: (k', v') :: rest
    else if k = k' then (k, v) :: rest
    else (k', v') :: mapInsert rest k v

/-- Sorted-map key removal, modelling BTreeMap::remove. -/
def mapRemove {α : Type} (m : List (Nat × α)) (k : Nat) : List (Nat × α) :=
  m.filter (fun e => ¬ e.1 = k)

/-- Sorted-set insertion for Nat elements, modelling BTreeSet::insert. -/
def nsetInsert : List Nat → Nat → List Nat
  | [], a => [a]
  | b :: rest, a =>
    if a < b then a :: b :: rest
    else if a = b then b :: rest
    else b :: nsetInsert rest a

/-- Collect a list of Nat into a sorted duplicate-free list (BTreeSet collect). -/
def nsetOf (l : List Nat) : List Nat := l.foldl nsetInsert []

/-- Generic sorted-set insertion driven by a comparison function. -/
def csetInsert {α : Type} (c : α → α → Ordering) : List α → α → List α
  | [], a => [a]
  | b :: rest, a =>
    match c a b with
    | .lt => a :: b :: rest
    | .eq => b :: rest
    | .gt => b :: csetInsert c rest a

/-- Collect a list into a sorted duplicate-free list under a comparison function. -/
def csetOf {α : Type} (c : α → α → Ordering) (l : List α) : List α :=
  l.foldl (csetInsert c) []

/-- Generic sorted-map lookup driven by a comparison function on keys. -/
def cmapLookup {κ α : Type} (c : κ → κ → Ordering) : List (κ × α) → κ → Option α
  | [], _ => none
  | (k', v) :: rest, k =>
    match c k k' with
    | .eq => some v
    | _ => cmapLookup c rest k

/-- Generic sorted-map insert-or-replace driven by a comparison function. -/
def cmapInsert {κ α : Type} (c : κ → κ → Ordering) : List (κ × α) → κ → α → List (κ × α)
  | [], k, v => [(k, v)]
  | (k', v') :: rest, k, v =>
    match c k k' with
    | .lt => (k, v) :: (k', v') :: rest
    | .eq => (k, v) :: rest
    | .gt => (k', v') :: cmapInsert c rest k v

/-- Lexicographic list comparison, mirroring the derived Ord on collections. -/
def listCmp {α : Type} (c : α → α → Ordering) : List α → List α → Ordering
  | [], [] => .eq
  | [], _ :: _ => .lt
  | _ :: _, [] => .gt
  | a :: as', b :: bs => match c a b with
    | .eq => listCmp c as' bs
    | o => o

/-- Reconfiguration request: Join(actor) or Leave(actor). -/
inductive Reconfig where
  | join : Actor → Reconfig
  | leave : Actor → Reconfig
  deriving DecidableEq, Repr

/-- Derived Ord on Reconfig: Join sorts before Leave, then by actor. -/
def Reconfig.cmp : Reconfig → Reconfig → Ordering
  | .join a, .join b => compare a b
  | .join _, .leave _ => .lt
  | .leave _, .join _ => .gt
  | .leave a, .leave b => compare a b

/-- Reconfig::apply: a Join inserts the actor into the member set, a Leave removes it. -/
def Reconfig.applyTo (r : Reconfig) (members : List Actor) : List Actor :=
  match r with
  | .join p => nsetInsert members p
  | .leave p => members.filter (fun a => ¬ a = p)

/-- Ballot: Propose(Reconfig), Merge(set of votes) or SuperMajority(set of votes).
A vote is the 4-tuple (generation, ballot, voter, signature); the signature is over
(ballot, generation). -/
inductive Ballot where
  | propose : Reconfig → Ballot
  | merge : List (Generation × Ballot × Actor × Sig) → Ballot
  | superMajority : List (Generation × Ballot × Actor × Sig) → Ballot

/-- Vote record { gen, ballot, voter, sig }, represented as a 4-tuple so that the
nested inductive Ballot can mention it. -/
abbrev Vote := Generation × Ballot × Actor × Sig

def Vote.gen (v : Vote) : Generation := v.1

def Vote.ballot (v : Vote) : Ballot := v.2.1

def Vote.voter (v : Vote) : Actor := v.2.2.1

def Vote.sig (v : Vote) : Sig := v.2.2.2

mutual

/-- Structural equality on ballots (the derived PartialEq of the source). -/
def Ballot.beq : Ballot → Ballot → Bool
  | .propose r, .propose r' => r = r'
  | .merge vs, .merge vs' => votesBeq vs vs'
  | .superMajority vs, .superMajority vs' => votesBeq vs vs'
  | _, _ => false

/-- Structural equality on lists of votes. -/
def votesBeq : List Vote → List Vote → Bool
  | [], [] => true
  | (g, b, a, s) :: t, (g', b', a', s') :: t' =>
    g = g' && Ballot.beq b b' && a = a' && s = s' && votesBeq t t'
  | _, _ => false

end

/-- Structural equality on votes. -/
def voteBeq (v w : Vote) : Bool :=
  v.1 = w.1 && Ballot.beq v.2.1 w.2.1 && v.2.2.1 = w.2.2.1 && v.2.2.2 = w.2.2.2

/-- Lexicographic comparison on signatures (pairs of naturals). -/
def sigCmp (x y : Sig) : Ordering :=
  match compare x.1 y.1 with
  | .eq => compare x.2 y.2
  | o => o

mutual

/-- Derived Ord on ballots: variant order Propose < Merge < SuperMajority,
then contents, with sets compared lexicographically. -/
def Ballot.cmp : Ballot → Ballot → Ordering
  | .propose r, .propose r' => Reconfig.cmp r r'
  | .propose _, _ => .lt
  | .merge _, .propose _ => .gt
  | .merge vs, .merge vs' => votesCmp vs vs'
  | .merge _, .superMajority _ => .lt
  | .superMajority _, .propose _ => .gt
  | .superMajority _, .merge _ => .gt
  | .superMajority vs, .superMajority vs' => votesCmp vs vs'

/-- Lexicographic comparison of vote lists. -/
def votesCmp : List Vote → List Vote → Ordering
  | [], [] => .eq
  | [], _ :: _ => .lt
  | _ :: _, [] => .gt
  | (g, b, a, s) :: t, (g', b', a', s') :: t' =>
    match compare g g' with
    | .eq =>
      match Ballot.cmp b b' with
      | .eq =>
        match compare a a' with
        | .eq =>
          match sigCmp s s' with
          | .eq => votesCmp t t'
          | o => o
        | o => o
      | o => o
    | o => o

end

/-- Derived Ord on votes: lexicographic over (gen, ballot, voter, sig). -/
def Vote.cmp (v w : Vote) : Ordering :=
  match compare v.1 w.1 with
  | .eq =>
    match Ballot.cmp v.2.1 w.2.1 with
    | .eq =>
      match compare v.2.2.1 w.2.2.1 with
      | .eq => sigCmp v.2.2.2 w.2.2.2
      | o => o
    | o => o
  | o => o

mutual

/-- Vote::supersedes: v supersedes w iff v equals w, or v is a Merge or
SuperMajority ballot one of whose inner votes transitively supersedes w. -/
def Vote.supersedes (v w : Vote) : Bool :=
  if voteBeq v w then true
  else match v with
    | (_, .propose _, _, _) => false
    | (_, .merge vs, _, _) => votesSupersede vs w
    | (_, .superMajority vs, _, _) => votesSupersede vs w

/-- True iff some vote in the list supersedes w. -/
def votesSupersede (vs : List Vote) (w : Vote) : Bool :=
  match vs with
  | [] => false
  | v :: rest => Vote.supersedes v w || votesSupersede rest w

end

mutual

/-- Raw preorder traversal of a vote and all votes nested in its ballot. -/
def Vote.unpackRaw (v : Vote) : List Vote :=
  match v with
  | (g, .propose r, a, s) => [(g, .propose r, a, s)]
  | (g, .merge vs, a, s) => (g, Ballot.merge vs, a, s) :: votesUnpackRaw vs
  | (g, .superMajority vs, a, s) => (g, Ballot.superMajority vs, a, s) :: votesUnpackRaw vs

/-- Raw traversal for a list of votes. -/
def votesUnpackRaw : List Vote → List Vote
  | [] => []
  | v :: rest => Vote.unpackRaw v ++ votesUnpackRaw rest

end

/-- Vote::unpack_votes: the BTreeSet of the vote and every vote nested in it. -/
def Vote.unpackVotes (v : Vote) : List Vote :=
  csetOf Vote.cmp v.unpackRaw

/-- Comparison on (actor, reconfig) pairs (derived Ord on tuples). -/
def arCmp (x y : Actor × Reconfig) : Ordering :=
  match compare x.1 y.1 with
  | .eq => Reconfig.cmp x.2 y.2
  | o => o

mutual

/-- Raw collection behind Vote::reconfigs. -/
def Vote.reconfigsRaw (v : Vote) : List (Actor × Reconfig) :=
  match v with
  | (_, .propose r, a, _) => [(a, r)]
  | (_, .merge vs, _, _) => votesReconfigsRaw vs
  | (_, .superMajority vs, _, _) => votesReconfigsRaw vs

/-- Raw collection over a list of votes. -/
def votesReconfigsRaw : List Vote → List (Actor × Reconfig)
  | [] => []
  | v :: rest => Vote.reconfigsRaw v ++ votesReconfigsRaw rest

end

/-- Vote::reconfigs: the BTreeSet of (voter, reconfig) pairs advocated by the vote. -/
def Vote.reconfigs (v : Vote) : List (Actor × Reconfig) :=
  csetOf arCmp v.reconfigsRaw

/-- Vote::is_super_majority_ballot. -/
def Vote.isSuperMajorityBallot (v : Vote) : Bool :=
  match v with
  | (_, .superMajority _, _, _) => true
  | _ => false

/-- simplify_votes: drop every vote superseded by a different vote of the set. -/
def simplifyVotes (votes : List Vote) : List Vote :=
  votes.filter (fun v => ¬ votes.any (fun w => ¬ voteBeq w v && Vote.supersedes w v))

/-- Ballot::simplify: Propose is already simplest; Merge and SuperMajority
simplify their vote sets. -/
def Ballot.simplify : Ballot → Ballot
  | .propose r => .propose r
  | .merge vs => .merge (simplifyVotes vs)
  | .superMajority vs => .superMajority (simplifyVotes vs)

/-- Membership soft cap on member-set size. -/
def SOFT_MAX_MEMBERS : Nat := 7

/-- A vote together with its destination actor. -/
structure VoteMsg where
  vote : Vote
  dest : Actor

/-- brb_membership::Error. -/
inductive MError where
  | invalidSignature
  | wrongDestination (dest : Actor) (actor : Actor)
  | membersAtCapacity (members : List Actor)
  | joinRequestForExistingMember (requester : Actor) (members : List Actor)
  | leaveRequestForNonMember (requester : Actor) (members : List Actor)
  | voteNotForNextGeneration (vote_gen : Generation) (gen : Generation)
      (pending_gen : Generation)
  | voteFromNonMember (voter : Actor) (members : List Actor)
  | voterChangedMind (reconfigs : List (Actor × Reconfig))
  | existingVoteIncompatibleWithNewVote (existing_vote : Vote)
  | superMajorityBallotIsNotSuperMajority (ballot : Ballot) (members : List Actor)
  | invalidGeneration (gen : Generation)
  | invalidVoteInHistory (vote : Vote)
  | encoding

/-- brb_membership::State. -/
structure MState where
  id : Actor
  gen : Generation
  pending_gen : Generation
  forced_reconfigs : List (Generation × List Reconfig)
  history : List (Generation × Vote)
  votes : List (Actor × Vote)
  faulty : Bool

/-- State::force_join: in forced_reconfigs at the current generation, remove a
Leave for the actor and insert a Join. -/
def forceJoinM (s : MState) (actor : Actor) : MState :=
  let fr := (mapLookup s.forced_reconfigs s.gen).getD []
  let fr := fr.filter (fun r => ¬ r = Reconfig.leave actor)
  let fr := csetInsert Reconfig.cmp fr (Reconfig.join actor)
  { s with forced_reconfigs := mapInsert s.forced_reconfigs s.gen fr }

/-- State::force_leave: in forced_reconfigs at the current generation, remove a
Join for the actor and insert a Leave. -/
def forceLeaveM (s : MState) (actor : Actor) : MState :=
  let fr := (mapLookup s.forced_reconfigs s.gen).getD []
  let fr := fr.filter (fun r => ¬ r = Reconfig.join actor)
  let fr := csetInsert Reconfig.cmp fr (Reconfig.leave actor)
  { s with forced_reconfigs := mapInsert s.forced_reconfigs s.gen fr }

/-- State::count_votes: map each distinct reconfig set to the number of votes
advocating exactly that set. -/
def countVotes (votes : List Vote) : List (List Reconfig × Nat) :=
  votes.foldl
    (fun count v =>
      let key := csetOf Reconfig.cmp (v.reconfigs.map (fun p => p.2))
      let c := (cmapLookup (listCmp Reconfig.cmp) count key).getD 0
      cmapInsert (listCmp Reconfig.cmp) count key (c + 1))
    []

/-- State::resolve_votes: the reconfig set advocated by the most votes; max_by
keeps the last maximum in ascending key order; empty input yields the empty set. -/
def resolveVotes (votes : List Vote) : List Reconfig :=
  match countVotes votes with
  | [] => []
  | c :: rest => (rest.foldl (fun acc x => if acc.2 ≤ x.2 then x else acc) c).1

/-- Inner loop of State::members: walk the history in ascending generation order,
applying forced reconfigs and the resolved votes of each SuperMajority entry,
returning the member set once the requested generation is reached. -/
def membersLoop (forced : List (Generation × List Reconfig)) :
    List (Generation × Vote) → Generation → List Actor → Except MError (List Actor)
  | [], gen, _ => .error (.invalidGeneration gen)
  | (hgen, vote) :: rest, gen, ms =>
    let ms := ((mapLookup forced hgen).getD []).foldl (fun acc r => r.applyTo acc) ms
    match vote with
    | (_, .superMajority vs, _, _) =>
      let ms := (resolveVotes vs).foldl (fun acc r => r.applyTo acc) ms
      if hgen = gen then .ok ms
      else membersLoop forced rest gen ms
    | v => .error (.invalidVoteInHistory v)

/-- State::members: reconstruct the member set at a generation by replaying the
forced reconfigs at generation 0 and then the history; generation 0 returns
immediately after the forced reconfigs. -/
def members (s : MState) (gen : Generation) : Except MError (List Actor) :=
  let m0 := ((mapLookup s.forced_reconfigs 0).getD []).foldl (fun ms r => r.applyTo ms) []
  if gen = 0 then .ok m0
  else membersLoop s.forced_reconfigs s.history gen m0

/-- State::validate_reconfig: a Join must name a non-member and the set must be
below the soft cap; a Leave must name a member. -/
def validateReconfig (s : MState) (r : Reconfig) : Except MError Unit :=
  match members s s.gen with
  | .error e => .error e
  | .ok mems =>
    match r with
    | .join actor =>
      if actor ∈ mems then .error (.joinRequestForExistingMember actor mems)
      else if SOFT_MAX_MEMBERS ≤ mems.length then .error (.membersAtCapacity mems)
      else .ok ()
    | .leave actor =>
      if ¬ actor ∈ mems then .error (.leaveRequestForNonMember actor mems)
      else .ok ()

/-- State::is_split_vote: enough votes are in, yet no plurality can reach a
supermajority even if every outstanding vote joined it. -/
def isSplitVote (s : MState) (votes : List Vote) : Except MError Bool :=
  let counts := countVotes votes
  let votes_received := (counts.map (fun e => e.2)).sum
  let most_votes := (counts.map (fun e => e.2)).foldl max 0
  match members s s.gen with
  | .error e => .error e
  | .ok m =>
    let n := m.length
    let outstanding := n - votes_received
    let predicted := most_votes + outstanding
    .ok (decide (3 * votes_received > 2 * n) && decide (3 * predicted ≤ 2 * n))

/-- State::is_super_majority: the largest number of votes advocating one
reconfig set is a strict two-thirds supermajority of the member set. -/
def isSuperMajority (s : MState) (votes : List Vote) : Except MError Bool :=
  let most_votes := ((countVotes votes).map (fun e => e.2)).foldl max 0
  match members s s.gen with
  | .error e => .error e
  | .ok m => .ok (decide (3 * most_votes > 2 * m.length))

/-- State::is_super_majority_over_super_majorities: the votes advocating the
winning reconfig set that are themselves SuperMajority ballots form a
supermajority. -/
def isSMSM (s : MState) (votes : List Vote) : Except MError Bool :=
  let winning := resolveVotes votes
  let count := ((votes.filter
      (fun v => csetOf Reconfig.cmp (v.reconfigs.map (fun p => p.2)) = winning)).filter
      (fun v => v.isSuperMajorityBallot)).length
  match members s s.gen with
  | .error e => .error e
  | .ok m => .ok (decide (3 * count > 2 * m.length))

section Membership

variable (encBG : Ballot → Generation → Nat)

/-- State::build_vote: a vote for the given generation and ballot by this
process, signed over (ballot, generation). -/
def buildVote (s : MState) (gen : Generation) (ballot : Ballot) : Vote :=
  (gen, ballot, s.id, (s.id, encBG ballot gen))

mutual

/-- State::validate_vote: signature, next-generation, membership and
vote-compatibility checks, then ballot validation. -/
def validateVote (s : MState) : Vote → Except MError Unit
  | (g, b, voter, sg) =>
    match members s s.gen with
    | .error e => .error e
    | .ok mems =>
      if ¬ (sg = (voter, encBG b g)) then .error .invalidSignature
      else if ¬ (g = s.gen + 1) then .error (.voteNotForNextGeneration g s.gen s.pending_gen)
      else if ¬ voter ∈ mems then .error (.voteFromNonMember voter mems)
      else
        match mapLookup s.votes voter with
        | some existing =>
          if ¬ Vote.supersedes (g, b, voter, sg) existing
              && ¬ Vote.supersedes existing (g, b, voter, sg) then
            .error (.existingVoteIncompatibleWithNewVote existing)
          else validateVoteTail s (g, b, voter, sg)
        | none => validateVoteTail s (g, b, voter, sg)

/-- Tail of State::validate_vote: at round start validate the ballot directly;
mid-round additionally require that no voter advocates two different reconfigs. -/
def validateVoteTail (s : MState) : Vote → Except MError Unit
  | (g, b, voter, sg) =>
    if s.pending_gen = s.gen then validateBallot s g b
    else
      let reconfigs := csetOf arCmp
        ((s.votes.map (fun e => e.2)).flatMap Vote.reconfigs
          ++ Vote.reconfigs (g, b, voter, sg))
      let voters := nsetOf (reconfigs.map (fun p => p.1))
      if ¬ (voters.length = reconfigs.length) then .error (.voterChangedMind reconfigs)
      else validateBallot s g b

/-- State::validate_ballot. -/
def validateBallot (s : MState) (gen : Generation) : Ballot → Except MError Unit
  | .propose r => validateReconfig s r
  | .merge votes => validateVoteList s gen votes
  | .superMajority votes =>
    match members s s.gen with
    | .error e => .error e
    | .ok mems =>
      match isSuperMajority s (csetOf Vote.cmp (votes.flatMap Vote.unpackVotes)) with
      | .error e => .error e
      | .ok b =>
        if ¬ b then
          .error (.superMajorityBallotIsNotSuperMajority (.superMajority votes) mems)
        else validateVoteList s gen votes

/-- Loop of State::validate_ballot over the inner votes of a Merge or
SuperMajority ballot. -/
def validateVoteList (s : MState) (gen : Generation) : List Vote → Except MError Unit
  | [] => .ok ()
  | v :: rest =>
    if ¬ (v.gen = gen) then .error (.voteNotForNextGeneration v.gen gen gen)
    else
      match validateVote s v with
      | .error e => .error e
      | .ok () => validateVoteList s gen rest

end

end Membership

/-- State::log_vote: for each unpacked vote, insert it for its voter if absent,
and replace the existing entry when the new vote supersedes it. -/
def logVote (s : MState) (v : Vote) : MState :=
  v.unpackVotes.foldl
    (fun s v' =>
      match mapLookup s.votes v'.voter with
      | none => { s with votes := mapInsert s.votes v'.voter v' }
      | some existing =>
        if Vote.supersedes v' existing then
          { s with votes := mapInsert s.votes v'.voter v' }
        else s)
    s

/-- The pending votes collected as a BTreeSet (State's votes.values()). -/
def votesSet (s : MState) : List Vote :=
  csetOf Vote.cmp (s.votes.map (fun e => e.2))

/-- State::broadcast: send the vote to every current member. -/
def broadcastM (s : MState) (v : Vote) : Except MError (List VoteMsg) :=
  match members s s.gen with
  | .error e => .error e
  | .ok mems => .ok (mems.map (fun m => VoteMsg.mk v m))

/-- State::cast_vote: advance pending_gen to the vote's generation, log it and
broadcast it. -/
def castVote (s : MState) (v : Vote) : MState × Except MError (List VoteMsg) :=
  let s := { s with pending_gen := v.gen }
  let s := logVote s v
  (s, broadcastM s v)

section Membership2

variable (encBG : Ballot → Generation → Nat)

/-- State::propose: build a Propose vote for the next generation, validate it
and cast it. -/
def propose (s : MState) (r : Reconfig) : MState × Except MError (List VoteMsg) :=
  let vote := buildVote encBG s (s.gen + 1) (.propose r)
  match validateVote encBG s vote with
  | .error e => (s, .error e)
  | .ok () => castVote s vote

/-- State::anti_entropy: every history entry beyond the peer's generation plus
every pending vote, addressed to the peer. -/
def antiEntropyM (s : MState) (from_gen : Generation) (actor : Actor) : List VoteMsg :=
  (s.history.filter (fun e => from_gen < e.1)).map (fun e => VoteMsg.mk e.2 actor)
    ++ s.votes.map (fun e => VoteMsg.mk e.2 actor)

/-- Body of State::handle_vote after validation and logging: the split-vote,
super-majority-over-super-majorities, plain-super-majority and first-vote
checks, in that order. -/
def handleVoteInner (s : MState) (v : Vote) : MState × Except MError (List VoteMsg) :=
  match isSplitVote s (votesSet s) with
  | .error e => (s, .error e)
  | .ok true =>
    let merge_vote := buildVote encBG s s.pending_gen (Ballot.simplify (.merge (votesSet s)))
    match mapLookup s.votes s.id with
    | some our_vote =>
      let reconfigs_we_voted_for :=
        csetOf Reconfig.cmp (our_vote.reconfigs.map (fun p => p.2))
      let reconfigs_we_would_vote_for :=
        csetOf Reconfig.cmp (merge_vote.reconfigs.map (fun p => p.2))
      if reconfigs_we_voted_for = reconfigs_we_would_vote_for then (s, .ok [])
      else castVote s merge_vote
    | none => castVote s merge_vote
  | .ok false =>
    match isSMSM s (votesSet s) with
    | .error e => (s, .error e)
    | .ok true =>
      match members s s.gen with
      | .error e => (s, .error e)
      | .ok mems =>
        if s.id ∈ mems then
          let ballot := Ballot.simplify (.superMajority (votesSet s))
          let sm_vote := buildVote encBG s s.pending_gen ballot
          ({ s with history := mapInsert s.history s.pending_gen sm_vote,
                    votes := [], gen := s.pending_gen }, .ok [])
        else
          match isSMSM s v.unpackVotes with
          | .error e => (s, .error e)
          | .ok true =>
            ({ s with history := mapInsert s.history s.pending_gen v,
                      votes := [], gen := s.pending_gen }, .ok [])
          | .ok false => (s, .ok [])
    | .ok false =>
      match isSuperMajority s (votesSet s) with
      | .error e => (s, .error e)
      | .ok true =>
        match mapLookup s.votes s.id with
        | some our_vote =>
          let super_majority_reconfigs := resolveVotes (votesSet s)
          let committed_outside := (resolveVotes our_vote.unpackVotes).any
            (fun r => ¬ r ∈ super_majority_reconfigs)
          if committed_outside then (s, .ok [])
          else if our_vote.isSuperMajorityBallot then (s, .ok [])
          else
            castVote s
              (buildVote encBG s s.pending_gen (Ballot.simplify (.superMajority (votesSet s))))
        | none =>
          castVote s
            (buildVote encBG s s.pending_gen (Ballot.simplify (.superMajority (votesSet s))))
      | .ok false =>
        if (mapLookup s.votes s.id).isNone then
          castVote s (buildVote encBG s s.pending_gen v.ballot)
        else (s, .ok [])

/-- State::handle_vote: validate and log the vote, then run the split-vote,
super-majority-over-super-majorities, plain-super-majority and first-vote
checks in that order. -/
def handleVote (s : MState) (v : Vote) : MState × Except MError (List VoteMsg) :=
  match validateVote encBG s v with
  | .error e => (s, .error e)
  | .ok () =>
    let s := logVote s v
    let s := { s with pending_gen := v.gen }
    handleVoteInner encBG s v

end Membership2

/-- crdts::Dot: an actor together with a per-actor counter. -/
structure Dot where
  actor : Actor
  counter : Nat
  deriving DecidableEq, Repr

/-- crdts::VClock as a sorted map from actor to counter (absent means zero). -/
abbrev VClock := List (Actor × Nat)

/-- VClock::get: the counter for an actor, zero when absent. -/
def VClock.get (c : VClock) (a : Actor) : Nat :=
  (mapLookup c a).getD 0

/-- VClock::inc: the next dot for an actor. -/
def VClock.inc (c : VClock) (a : Actor) : Dot :=
  Dot.mk a (c.get a + 1)

/-- VClock::apply: record a dot, taking the per-actor maximum. -/
def VClock.applyDot (c : VClock) (d : Dot) : VClock :=
  if c.get d.actor < d.counter then mapInsert c d.actor d.counter else c

/-- Msg { gen, op, dot }; the data-type operation alphabet is Nat. -/
structure Msg where
  gen : Generation
  op : Nat
  dot : Dot
  deriving DecidableEq, Repr

/-- deterministic_brb::Op. -/
inductive BrbOp where
  | requestValidation (msg : Msg)
  | signedValidated (msg : Msg) (sig : Sig)
  | proofOfAgreement (msg : Msg) (proof : List (Actor × Sig))

/-- packet::Payload. -/
inductive Payload where
  | antiEntropy (generation : Generation) (delivered : VClock)
  | brb (op : BrbOp)
  | membership (vote : Vote)

/-- packet::Packet: a payload signed by its source. -/
structure Packet where
  source : Actor
  dest : Actor
  payload : Payload
  sig : Sig

/-- error::ValidationError. -/
inductive VError where
  | packetSourceIsNotDot (frm : Actor) (dot : Dot)
  | msgDotNotTheNextDot (msg_dot : Dot) (expected_dot : Dot)
  | sourceAlreadyHasPendingMsg (msg_dot : Dot) (next_deliver_dot : Dot)
  | messageFromDifferentGeneration (msg_gen : Generation) (gen : Generation)
  | sourceIsNotVotingMember (frm : Actor) (members : List Actor)
  | dataTypeFailedValidation
  | invalidSignature
  | signedValidatedForPacketWeDidNotRequest
  | msgDotNotNextDotToBeDelivered (msg_dot : Dot) (expected_dot : Dot)
  | notEnoughSignaturesToFormQuorum
  | proofContainsSignaturesFromNonMembers
  | proofContainsInvalidSignatures

/-- error::Error. -/
inductive BrbError where
  | membership (e : MError)
  | encoding
  | validation (e : VError)
  | signature

/-- DeterministicBRB: membership state, pending proofs, receive and deliver
clocks, per-source delivered history, and the data-type state. -/
structure BState (DtSt : Type) where
  membership : MState
  pending_proof : List (Msg × List (Actor × Sig))
  received : VClock
  delivered : VClock
  history_from_source : List (Actor × List (Msg × List (Actor × Sig)))
  dt : DtSt

/-- DeterministicBRB::actor. -/
def BState.actor {DtSt : Type} (s : BState DtSt) : Actor :=
  s.membership.id

/-- Equality-keyed lookup for pending_proof (a HashMap keyed by Msg). -/
def ppLookup (pp : List (Msg × List (Actor × Sig))) (m : Msg) : Option (List (Actor × Sig)) :=
  match pp with
  | [] => none
  | (m', v) :: rest => if m = m' then some v else ppLookup rest m

/-- pending_proof.entry(msg).or_default().insert(source, sig): update the proof
map under the message, appending a fresh entry when the message is new. -/
def ppInsert (pp : List (Msg × List (Actor × Sig))) (m : Msg) (src : Actor) (sg : Sig) :
    List (Msg × List (Actor × Sig)) :=
  match pp with
  | [] => [(m, [(src, sg)])]
  | (m', v) :: rest =>
    if m = m' then (m', mapInsert v src sg) :: rest
    else (m', v) :: ppInsert rest m src sg

/-- pending_proof.remove(&msg). -/
def ppRemove (pp : List (Msg × List (Actor × Sig))) (m : Msg) :
    List (Msg × List (Actor × Sig)) :=
  pp.filter (fun e => ¬ e.1 = m)

/-- history_from_source.entry(actor).or_default().push(entry). -/
def hfsPush (h : List (Actor × List (Msg × List (Actor × Sig)))) (a : Actor)
    (x : Msg × List (Actor × Sig)) : List (Actor × List (Msg × List (Actor × Sig))) :=
  mapInsert h a ((mapLookup h a).getD [] ++ [x])

section Brb

variable {DtSt : Type}
variable (dtValidate : DtSt → Actor → Nat → Bool) (dtApply : DtSt → Nat → DtSt)
variable (encBG : Ballot → Generation → Nat) (encMsg : Msg → Nat)
variable (encPayload : Payload → Nat)

/-- DeterministicBRB::peers: the members at the current generation. -/
def peers (s : BState DtSt) : Except BrbError (List Actor) :=
  match members s.membership s.membership.gen with
  | .error e => .error (.membership e)
  | .ok m => .ok m

/-- DeterministicBRB::supermajority: n * 3 > |members(gen)| * 2. -/
def supermajority (s : BState DtSt) (n : Nat) (gen : Generation) : Except BrbError Bool :=
  match members s.membership gen with
  | .error e => .error (.membership e)
  | .ok m => .ok (decide (n * 3 > m.length * 2))

/-- DeterministicBRB::send: a packet from this process carrying the payload and
its signature (serialization is modelled as total). -/
def send (s : BState DtSt) (dest : Actor) (payload : Payload) : Packet :=
  Packet.mk s.actor dest payload (s.membership.id, encPayload payload)

/-- DeterministicBRB::broadcast: one signed packet per target. -/
def broadcast (s : BState DtSt) (payload : Payload) (targets : List Actor) : List Packet :=
  targets.map (fun t => send encPayload s t payload)

/-- DeterministicBRB::exec_op: a RequestValidation for a msg stamped with the
current generation and the next received dot of this process, broadcast to the
current members. This method takes &self and does not change the state. -/
def exec_op (s : BState DtSt) (op : Nat) : Except BrbError (List Packet) :=
  let msg := Msg.mk s.membership.gen op (s.received.inc s.actor)
  match peers s with
  | .error e => .error e
  | .ok ps => .ok (broadcast encPayload s (.brb (.requestValidation msg)) ps)

/-- DeterministicBRB::force_join. -/
def forceJoin (s : BState DtSt) (peer : Actor) : BState DtSt :=
  { s with membership := forceJoinM s.membership peer }

/-- DeterministicBRB::force_leave. -/
def forceLeave (s : BState DtSt) (peer : Actor) : BState DtSt :=
  { s with membership := forceLeaveM s.membership peer }

/-- DeterministicBRB::request_membership: propose a Join and wrap the vote
messages into packets. -/
def request_membership (s : BState DtSt) (actor : Actor) :
    BState DtSt × Except BrbError (List Packet) :=
  let (m', res) := propose encBG s.membership (.join actor)
  let s := { s with membership := m' }
  match res with
  | .error e => (s, .error (.membership e))
  | .ok vms => (s, .ok (vms.map (fun vm => send encPayload s vm.dest (.membership vm.vote))))

/-- DeterministicBRB::kill_peer: propose a Leave and wrap the vote messages
into packets. -/
def kill_peer (s : BState DtSt) (actor : Actor) :
    BState DtSt × Except BrbError (List Packet) :=
  let (m', res) := propose encBG s.membership (.leave actor)
  let s := { s with membership := m' }
  match res with
  | .error e => (s, .error (.membership e))
  | .ok vms => (s, .ok (vms.map (fun vm => send encPayload s vm.dest (.membership vm.vote))))

/-- DeterministicBRB::anti_entropy: a packet telling the peer our generation
and delivered clock. -/
def anti_entropy (s : BState DtSt) (peer : Actor) : Packet :=
  send encPayload s peer (.antiEntropy s.membership.gen s.delivered)

/-- DeterministicBRB::validate_brb_op. -/
def validate_brb_op (s : BState DtSt) (frm : Actor) (op : BrbOp) : Except BrbError Unit :=
  match op with
  | .requestValidation msg =>
    if ¬ (frm = msg.dot.actor) then
      .error (.validation (.packetSourceIsNotDot frm msg.dot))
    else if ¬ (msg.dot = s.received.inc frm) then
      .error (.validation (.msgDotNotTheNextDot msg.dot (s.received.inc frm)))
    else if ¬ (msg.dot = s.delivered.inc frm) then
      .error (.validation (.sourceAlreadyHasPendingMsg msg.dot (s.delivered.inc frm)))
    else if ¬ (msg.gen = s.membership.gen) then
      .error (.validation (.messageFromDifferentGeneration msg.gen s.membership.gen))
    else
      match members s.membership s.membership.gen with
      | .error e => .error (.membership e)
      | .ok mems =>
        if ¬ frm ∈ mems then
          .error (.validation (.sourceIsNotVotingMember frm mems))
        else if ¬ dtValidate s.dt frm msg.op then
          .error (.validation .dataTypeFailedValidation)
        else .ok ()
  | .signedValidated msg sg =>
    if ¬ (sg = (frm, encMsg msg)) then .error .signature
    else if ¬ (s.actor = msg.dot.actor) then
      .error (.validation .signedValidatedForPacketWeDidNotRequest)
    else .ok ()
  | .proofOfAgreement msg proof =>
    match members s.membership msg.gen with
    | .error e => .error (.membership e)
    | .ok msg_members =>
      if ¬ (s.delivered.inc msg.dot.actor = msg.dot) then
        .error (.validation (.msgDotNotNextDotToBeDelivered msg.dot (s.delivered.inc msg.dot.actor)))
      else
        match supermajority s proof.length msg.gen with
        | .error e => .error e
        | .ok sm =>
          if ¬ sm then .error (.validation .notEnoughSignaturesToFormQuorum)
          else if ¬ proof.all (fun e => e.1 ∈ msg_members) then
            .error (.validation .proofContainsSignaturesFromNonMembers)
          else if ¬ proof.all (fun e => e.2 = (e.1, encMsg msg)) then
            .error (.validation .proofContainsInvalidSignatures)
          else .ok ()

/-- DeterministicBRB::validate_payload. -/
def validate_payload (s : BState DtSt) (frm : Actor) (payload : Payload) :
    Except BrbError Unit :=
  match payload with
  | .antiEntropy _ _ => .ok ()
  | .brb op => validate_brb_op dtValidate encMsg s frm op
  | .membership _ => .ok ()

/-- DeterministicBRB::validate_packet: outer signature, then payload. -/
def validate_packet (s : BState DtSt) (p : Packet) : Except BrbError Unit :=
  if ¬ (p.sig = (p.source, encPayload p.payload)) then .error .signature
  else validate_payload dtValidate encMsg s p.source p.payload

/-- DeterministicBRB::process_brb_op. -/
def process_brb_op (s : BState DtSt) (source : Actor) (op : BrbOp) :
    BState DtSt × Except BrbError (List Packet) :=
  match op with
  | .requestValidation msg =>
    let s := { s with received := s.received.applyDot msg.dot }
    let sg : Sig := (s.membership.id, encMsg msg)
    (s, .ok [send encPayload s source (.brb (.signedValidated msg sg))])
  | .signedValidated msg sg =>
    let s := { s with pending_proof := ppInsert s.pending_proof msg source sg }
    let num_signatures := ((ppLookup s.pending_proof msg).getD []).length
    match supermajority s num_signatures msg.gen with
    | .error e => (s, .error e)
    | .ok sm1 =>
      match supermajority s (num_signatures - 1) msg.gen with
      | .error e => (s, .error e)
      | .ok sm2 =>
        if sm1 && ¬ sm2 then
          let proof := (ppLookup s.pending_proof msg).getD []
          match members s.membership msg.gen with
          | .error e => (s, .error (.membership e))
          | .ok mems =>
            let recipients := nsetInsert mems s.actor
            (s, .ok (broadcast encPayload s (.brb (.proofOfAgreement msg proof)) recipients))
        else (s, .ok [])
  | .proofOfAgreement msg proof =>
    let s := { s with received := s.received.applyDot msg.dot }
    let s := { s with delivered := s.delivered.applyDot msg.dot }
    let s := { s with history_from_source := hfsPush s.history_from_source msg.dot.actor (msg, proof) }
    let s := { s with pending_proof := ppRemove s.pending_proof msg }
    let s := { s with dt := dtApply s.dt msg.op }
    (s, .ok [])

/-- DeterministicBRB::process_packet. -/
def process_packet (s : BState DtSt) (p : Packet) :
    BState DtSt × Except BrbError (List Packet) :=
  match p.payload with
  | .antiEntropy generation delivered =>
    let memb_packets := (antiEntropyM s.membership generation p.source).map
      (fun vm => send encPayload s vm.dest (.membership vm.vote))
    let hist_packets := s.history_from_source.flatMap
      (fun e =>
        ((e.2.filter (fun mp => mp.1.dot.counter > delivered.get e.1)).map
          (fun mp => send encPayload s p.source (.brb (.proofOfAgreement mp.1 mp.2)))))
    (s, .ok (memb_packets ++ hist_packets))
  | .brb op => process_brb_op dtApply encMsg encPayload s p.source op
  | .membership vote =>
    let (m', res) := handleVote encBG s.membership vote
    let s := { s with membership := m' }
    match res with
    | .error e => (s, .error (.membership e))
    | .ok vms => (s, .ok (vms.map (fun vm => send encPayload s vm.dest (.membership vm.vote))))

/-- DeterministicBRB::handle_packet: validate, then process. -/
def handle_packet (s : BState DtSt) (p : Packet) :
    BState DtSt × Except BrbError (List Packet) :=
  match validate_packet dtValidate encMsg encPayload s p with
  | .error e => (s, .error e)
  | .ok () => process_packet dtApply encBG encMsg encPayload s p

end Brb

/-- Default brb_membership::State for a given identity. -/
def initM (id : Actor) : MState :=
  MState.mk id 0 0 [] [] [] false

/-- DeterministicBRB::new: default membership, empty proofs, clocks and history,
fresh data-type state. -/
def initB {DtSt : Type} (id : Actor) (dt0 : DtSt) : BState DtSt :=
  BState.mk (initM id) [] [] [] [] dt0

section StepRel

variable {DtSt : Type}
variable (dtValidate : DtSt → Actor → Nat → Bool) (dtApply : DtSt → Nat → DtSt)
variable (encBG : Ballot → Generation → Nat) (encMsg : Msg → Nat)
variable (encPayload : Payload → Nat)

/-- One state-mutating operation of a BRB process. The read-only operations
(exec_op, anti_entropy, peers) take &self in the source and cannot change the
state, so they are omitted. -/
inductive BStep : BState DtSt → BState DtSt → Prop where
  | handle (s : BState DtSt) (p : Packet) :
      BStep s (handle_packet dtValidate dtApply encBG encMsg encPayload s p).1
  | reqMembership (s : BState DtSt) (a : Actor) :
      BStep s (request_membership encBG encPayload s a).1
  | killPeer (s : BState DtSt) (a : Actor) :
      BStep s (kill_peer encBG encPayload s a).1
  | forceJoinStep (s : BState DtSt) (a : Actor) :
      BStep s (forceJoin s a)
  | forceLeaveStep (s : BState DtSt) (a : Actor) :
      BStep s (forceLeave s a)

/-- States reachable from a fresh process by any sequence of operations. -/
def ReachableB (id : Actor) (dt0 : DtSt) (s : BState DtSt) : Prop :=
  Relation.ReflTransGen (BStep dtValidate dtApply encBG encMsg encPayload) (initB id dt0) s

end StepRel

/-- Number of votes in a list advocating exactly the reconfig set rs. -/
def advocates (votes : List Vote) (rs : List Reconfig) : Nat :=
  (votes.filter (fun v => csetOf Reconfig.cmp (v.reconfigs.map (fun p => p.2)) = rs)).length

/-- Concrete data-type instance used by witnesses: a grow-only list of Nat
operations that validates everything. -/
abbrev DtSt0 := List Nat

def dtValidate0 : DtSt0 → Actor → Nat → Bool := fun _ _ _ => true

def dtApply0 : DtSt0 → Nat → DtSt0 := fun l n => l ++ [n]

/-- Concrete encoders used by witnesses (constant digests). -/
def encBG0 : Ballot → Generation → Nat := fun _ _ => 0

def encMsg0 : Msg → Nat := fun _ => 0

def encPayload0 : Payload → Nat := fun _ => 0

/-- Fixture: a membership state whose generation-0 member set is 0, 1, 2. -/
def mA : MState :=
  MState.mk 0 0 0 [(0, [Reconfig.join 0, Reconfig.join 1, Reconfig.join 2])] [] [] false

/-- Fixture: a BRB process with identity 0 and members 0, 1, 2 at generation 0. -/
def sA : BState DtSt0 :=
  { initB 0 ([] : DtSt0) with membership := mA }

/-- Fixture: sA after having received one message from actor 1. -/
def sC1 : BState DtSt0 :=
  { sA with received := [(1, 1)] }

/-- Fixture: a membership state at the 7-member soft cap. -/
def mB7 : MState :=
  MState.mk 0 0 0 [(0, (List.range 7).map Reconfig.join)] [] [] false

/-- Fixture: a fresh BRB process with identity 0. -/
def sC2 : BState DtSt0 := initB 0 ([] : DtSt0)

/-- Fixture: a message claiming generation 1 (which has no history entry). -/
def msgC2 : Msg := Msg.mk 1 5 (Dot.mk 0 1)

/-- Fixture: a correctly signed SignedValidated packet from peer 1 for msgC2. -/
def pktC2 : Packet := Packet.mk 1 0 (.brb (.signedValidated msgC2 (1, 0))) (1, 0)

/-- Fixture: a SuperMajority vote with no inner votes, used as a history entry. -/
def voteSM : Vote := (1, Ballot.superMajority [], 0, (0, 0))

/-- Fixture: a membership state whose generation 1 is committed in history. -/
def mH : MState :=
  MState.mk 0 1 1 [(0, [Reconfig.join 0])] [(1, voteSM)] [] false

/-- P3 invariant: for every source, the counters recorded in
history_from_source are exactly 1, 2, …, n, and the delivered clock entry for
that source equals n. -/
def P3Inv {DtSt : Type} (s : BState DtSt) : Prop :=
  ∀ a : Actor,
    ((mapLookup s.history_from_source a).getD []).map (fun e => e.1.dot.counter)
      = List.range' 1 ((mapLookup s.history_from_source a).getD []).length
    ∧ s.delivered.get a = ((mapLookup s.history_from_source a).getD []).length

/-! Helper lemmas about the map and set representations. -/

theorem mapLookup_insert_self {α : Type} (m : List (Nat × α)) (k : Nat) (v : α) :
    mapLookup (mapInsert m k v) k = some v := by
  induction m with
  | nil => simp [mapInsert, mapLookup]
  | cons e rest ih =>
    obtain ⟨k', v'⟩ := e
    by_cases h1 : k < k'
    · simp [mapInsert, h1, mapLookup]
    · by_cases h2 : k = k'
      · simp [mapInsert, h1, h2, mapLookup]
      · simp [mapInsert, h1, h2, mapLookup, ih]

theorem mapLookup_insert_ne {α : Type} (m : List (Nat × α)) (k k' : Nat) (v : α)
    (h : ¬ k' = k) : mapLookup (mapInsert m k v) k' = mapLookup m k' := by
  induction m with
  | nil => simp [mapInsert, mapLookup, h]
  | cons e rest ih =>
    obtain ⟨k0, v0⟩ := e
    by_cases h1 : k < k0
    · simp [mapInsert, h1, mapLookup, h]
    · by_cases h2 : k = k0
      · subst h2
        simp [mapInsert, h1, mapLookup, h]
      · simp [mapInsert, h1, h2, mapLookup, ih]

theorem mapLookup_isSome_mem {α : Type} (m : List (Nat × α)) (k : Nat)
    (h : (mapLookup m k).isSome) : k ∈ m.map Prod.fst := by
  induction m with
  | nil => simp [mapLookup] at h
  | cons e rest ih =>
    obtain ⟨k0, v0⟩ := e
    by_cases h2 : k = k0
    · simp [h2]
    · simp only [mapLookup, if_neg h2] at h
      simp [ih h]

theorem length_mapInsert_of_mem {α : Type} (m : List (Nat × α)) (k : Nat) (v : α)
    (hs : m.Pairwise (fun a b => a.1 < b.1)) (h : (mapLookup m k).isSome) :
    (mapInsert m k v).length = m.length := by
  induction m with
  | nil => simp [mapLookup] at h
  | cons e rest ih =>
    obtain ⟨k0, v0⟩ := e
    rw [List.pairwise_cons] at hs
    by_cases h2 : k = k0
    · subst h2
      simp [mapInsert, lt_irrefl]
    · simp only [mapLookup, if_neg h2] at h
      have hk : k0 < k := by
        have := mapLookup_isSome_mem rest k h
        simp only [List.mem_map] at this
        obtain ⟨e, he, hek⟩ := this
        exact hek ▸ hs.1 e he
      have h3 : ¬ k < k0 := by omega
      simp [mapInsert, h3, h2, ih hs.2 h]

theorem VClock.get_applyDot_self (c : VClock) (d : Dot)
    (h : c.get d.actor < d.counter) : (c.applyDot d).get d.actor = d.counter := by
  simp only [VClock.applyDot, VClock.get] at h ⊢
  rw [if_pos h, mapLookup_insert_self]
  rfl

theorem VClock.get_applyDot_ne (c : VClock) (d : Dot) (a : Actor)
    (h : ¬ a = d.actor) : (c.applyDot d).get a = c.get a := by
  simp only [VClock.applyDot, VClock.get]
  by_cases h1 : (mapLookup c d.actor).getD 0 < d.counter
  · rw [if_pos h1, mapLookup_insert_ne _ _ _ _ h]
  · rw [if_neg h1]

theorem rcmp_eq_iff (a b : Reconfig) : Reconfig.cmp a b = .eq ↔ a = b := by
  cases a <;> cases b <;> simp [Reconfig.cmp, compare_eq_iff_eq]

theorem rcmp_gt_iff (a b : Reconfig) : Reconfig.cmp a b = .gt ↔ Reconfig.cmp b a = .lt := by
  cases a <;> cases b <;>
    simp [Reconfig.cmp, compare_lt_iff_lt, compare_gt_iff_gt]

theorem rcmp_lt_trans {a b c : Reconfig} (h1 : Reconfig.cmp a b = .lt)
    (h2 : Reconfig.cmp b c = .lt) : Reconfig.cmp a c = .lt := by
  cases a <;> cases b <;> cases c <;>
    simp only [Reconfig.cmp, compare_lt_iff_lt] at h1 h2 ⊢ <;>
    first
      | rfl
      | exact lt_trans h1 h2
      | exact absurd h1 (by decide)
      | exact absurd h2 (by decide)


theorem rlistCmp_eq_iff : ∀ xs ys : List Reconfig,
    listCmp Reconfig.cmp xs ys = .eq ↔ xs = ys := by
  intro xs
  induction xs with
  | nil => intro ys; cases ys <;> simp [listCmp]
  | cons x xs ih =>
    intro ys
    cases ys with
    | nil => simp [listCmp]
    | cons y ys =>
      simp only [listCmp]
      rcases h : Reconfig.cmp x y with _ | _ | _ <;> simp only [h]
      · constructor
        · intro h'; exact absurd h' (by decide)
        · intro h'
          rw [List.cons.injEq] at h'
          rw [(rcmp_eq_iff x y).2 h'.1] at h
          exact absurd h (by decide)
      · rw [(rcmp_eq_iff x y).1 h]
        simp [ih ys]
      · constructor
        · intro h'; exact absurd h' (by decide)
        · intro h'
          rw [List.cons.injEq] at h'
          rw [(rcmp_eq_iff x y).2 h'.1] at h
          exact absurd h (by decide)

theorem rlistCmp_gt_iff : ∀ xs ys : List Reconfig,
    listCmp Reconfig.cmp xs ys = .gt ↔ listCmp Reconfig.cmp ys xs = .lt := by
  intro xs
  induction xs with
  | nil => intro ys; cases ys <;> simp [listCmp]
  | cons x xs ih =>
    intro ys
    cases ys with
    | nil => simp [listCmp]
    | cons y ys =>
      simp only [listCmp]
      rcases h : Reconfig.cmp x y with _ | _ | _
      · have h' : Reconfig.cmp y x = .gt := (rcmp_gt_iff y x).2 h
        simp only [h, h']
        constructor
        · intro hh; exact absurd hh (by decide)
        · intro hh; exact absurd hh (by decide)
      · have hx := (rcmp_eq_iff x y).1 h
        subst hx
        simp only [h]
        exact ih ys
      · have h' : Reconfig.cmp y x = .lt := (rcmp_gt_iff x y).1 h
        simp only [h, h']

theorem rlistCmp_lt_trans : ∀ (xs ys zs : List Reconfig),
    listCmp Reconfig.cmp xs ys = .lt → listCmp Reconfig.cmp ys zs = .lt →
    listCmp Reconfig.cmp xs zs = .lt := by
  intro xs
  induction xs with
  | nil =>
    intro ys zs h1 h2
    cases ys with
    | nil => exact h2
    | cons y ys =>
      cases zs with
      | nil => simp [listCmp] at h2
      | cons z zs => simp [listCmp]
  | cons x xs ih =>
    intro ys zs h1 h2
    cases ys with
    | nil => simp [listCmp] at h1
    | cons y ys =>
      cases zs with
      | nil => simp [listCmp] at h2
      | cons z zs =>
        simp only [listCmp] at h1 h2 ⊢
        rcases hxy : Reconfig.cmp x y with _ | _ | _ <;> simp only [hxy] at h1
        · rcases hyz : Reconfig.cmp y z with _ | _ | _ <;> simp only [hyz] at h2
          · simp only [rcmp_lt_trans hxy hyz]
          · rw [(rcmp_eq_iff y z).1 hyz] at hxy
            simp only [hxy]
          · exact absurd h2 (by decide)
        · obtain rfl := (rcmp_eq_iff x y).1 hxy
          rcases hyz : Reconfig.cmp x z with _ | _ | _ <;> simp only [hyz] at h2
          · simp only [hyz]
          · obtain rfl := (rcmp_eq_iff x z).1 hyz
            simp only [(rcmp_eq_iff x x).2 rfl]
            exact ih ys zs h1 h2
          · exact absurd h2 (by decide)
        · exact absurd h1 (by decide)

theorem rs_cmapLookup_insert_self {α : Type} (m : List (List Reconfig × α))
    (k : List Reconfig) (v : α) :
    cmapLookup (listCmp Reconfig.cmp) (cmapInsert (listCmp Reconfig.cmp) m k v) k = some v := by
  induction m with
  | nil => simp [cmapInsert, cmapLookup, (rlistCmp_eq_iff k k).2 rfl]
  | cons e rest ih =>
    obtain ⟨k0, v0⟩ := e
    simp only [cmapInsert]
    rcases h : listCmp Reconfig.cmp k k0 with _ | _ | _
    · simp [cmapLookup, (rlistCmp_eq_iff k k).2 rfl]
    · simp [cmapLookup, (rlistCmp_eq_iff k k).2 rfl]
    · simp only [cmapLookup, h, ih]

theorem rs_cmapLookup_insert_ne {α : Type} (m : List (List Reconfig × α))
    (k k' : List Reconfig) (v : α) (h : ¬ k' = k) :
    cmapLookup (listCmp Reconfig.cmp) (cmapInsert (listCmp Reconfig.cmp) m k v) k'
      = cmapLookup (listCmp Reconfig.cmp) m k' := by
  have hne : ¬ listCmp Reconfig.cmp k' k = .eq := by
    intro hc
    exact h ((rlistCmp_eq_iff k' k).1 hc)
  induction m with
  | nil =>
    simp only [cmapInsert, cmapLookup]
  | cons e0 rest ih =>
    obtain ⟨k0, v0⟩ := e0
    simp only [cmapInsert]
    rcases hc : listCmp Reconfig.cmp k k0 with _ | _ | _
    · simp only [cmapLookup]
    · obtain rfl := (rlistCmp_eq_iff k k0).1 hc
      simp only [cmapLookup]
    · simp only [cmapLookup]
      rcases hc' : listCmp Reconfig.cmp k' k0 with _ | _ | _
      · simp only [hc']
        exact ih
      · simp only [hc']
      · simp only [hc']
        exact ih

theorem rs_mem_cmapInsert {α : Type} (m : List (List Reconfig × α))
    (k : List Reconfig) (v : α) :
    ∀ e ∈ cmapInsert (listCmp Reconfig.cmp) m k v, e ∈ m ∨ e = (k, v) := by
  induction m with
  | nil =>
    intro e he
    simp only [cmapInsert] at he
    simp at he
    simp [he]
  | cons e0 rest ih =>
    obtain ⟨k0, v0⟩ := e0
    intro e he
    simp only [cmapInsert] at he
    rcases hc : listCmp Reconfig.cmp k k0 with _ | _ | _ <;> rw [hc] at he
    · rcases List.mem_cons.1 he with he | he
      · right; exact he
      · left; exact he
    · rcases List.mem_cons.1 he with he | he
      · right; exact he
      · left; exact List.mem_cons_of_mem _ he
    · rcases List.mem_cons.1 he with he | he
      · left; exact he ▸ List.mem_cons_self _ _
      · rcases ih e he with h1 | h1
        · left; exact List.mem_cons_of_mem _ h1
        · right; exact h1

theorem rs_cmapInsert_sorted {α : Type} (m : List (List Reconfig × α))
    (k : List Reconfig) (v : α)
    (hs : m.Pairwise (fun a b => listCmp Reconfig.cmp a.1 b.1 = .lt)) :
    (cmapInsert (listCmp Reconfig.cmp) m k v).Pairwise
      (fun a b => listCmp Reconfig.cmp a.1 b.1 = .lt) := by
  induction m with
  | nil => simp [cmapInsert]
  | cons e0 rest ih =>
    obtain ⟨k0, v0⟩ := e0
    rw [List.pairwise_cons] at hs
    simp only [cmapInsert]
    rcases hc : listCmp Reconfig.cmp k k0 with _ | _ | _
    · rw [List.pairwise_cons]
      constructor
      · intro e he
        rcases List.mem_cons.1 he with he | he
        · rw [he]
          exact hc
        · exact rlistCmp_lt_trans _ _ _ hc (hs.1 e he)
      · rw [List.pairwise_cons]
        exact hs
    · obtain rfl := (rlistCmp_eq_iff k k0).1 hc
      rw [List.pairwise_cons]
      exact hs
    · rw [List.pairwise_cons]
      constructor
      · intro e he
        rcases rs_mem_cmapInsert rest k v e he with h1 | h1
        · exact hs.1 e h1
        · rw [h1]
          exact (rlistCmp_gt_iff k k0).1 hc
      · exact ih hs.2

theorem rs_cmapLookup_of_mem {α : Type} (m : List (List Reconfig × α))
    (k : List Reconfig) (n : α)
    (hs : m.Pairwise (fun a b => listCmp Reconfig.cmp a.1 b.1 = .lt))
    (hm : (k, n) ∈ m) : cmapLookup (listCmp Reconfig.cmp) m k = some n := by
  induction m with
  | nil => simp at hm
  | cons e0 rest ih =>
    obtain ⟨k0, v0⟩ := e0
    rw [List.pairwise_cons] at hs
    rcases List.mem_cons.1 hm with hm | hm
    · rw [Prod.mk.injEq] at hm
      obtain ⟨rfl, rfl⟩ := hm
      simp only [cmapLookup, (rlistCmp_eq_iff k k).2 rfl]
    · have hlt : listCmp Reconfig.cmp k0 k = .lt := hs.1 (k, n) hm
      have hne : ¬ listCmp Reconfig.cmp k k0 = .eq := by
        intro hc
        obtain rfl := (rlistCmp_eq_iff k k0).1 hc
        rw [(rlistCmp_eq_iff k k).2 rfl] at hlt
        exact absurd hlt (by decide)
      simp only [cmapLookup]
      rcases hc : listCmp Reconfig.cmp k k0 with _ | _ | _
      · exact ih hs.2 hm
      · exact absurd hc hne
      · exact ih hs.2 hm

theorem rs_cmapLookup_mem_values {α : Type} (m : List (List Reconfig × α))
    (k : List Reconfig) (n : α)
    (h : cmapLookup (listCmp Reconfig.cmp) m k = some n) : n ∈ m.map Prod.snd := by
  induction m with
  | nil => simp [cmapLookup] at h
  | cons e0 rest ih =>
    obtain ⟨k0, v0⟩ := e0
    simp only [cmapLookup] at h
    rcases hc : listCmp Reconfig.cmp k k0 with _ | _ | _ <;> rw [hc] at h
    · simp [ih h]
    · simp only [Option.some.injEq] at h
      simp [h]
    · simp [ih h]

theorem le_foldl_max (l : List Nat) (a : Nat) : a ≤ l.foldl max a := by
  induction l generalizing a with
  | nil => simp
  | cons x rest ih =>
    simp only [List.foldl_cons]
    exact le_trans (le_max_left a x) (ih (max a x))

theorem foldl_max_of_mem (l : List Nat) (a x : Nat) (hx : x ∈ l) : x ≤ l.foldl max a := by
  induction l generalizing a with
  | nil => simp at hx
  | cons y rest ih =>
    simp only [List.foldl_cons]
    rcases List.mem_cons.1 hx with h | h
    · subst h
      exact le_trans (le_max_right a x) (le_foldl_max rest (max a x))
    · exact ih (max a y) h

theorem foldl_max_choice (l : List Nat) (a : Nat) : l.foldl max a = a ∨ l.foldl max a ∈ l := by
  induction l generalizing a with
  | nil => simp
  | cons x rest ih =>
    simp only [List.foldl_cons]
    rcases ih (max a x) with h | h
    · rcases max_choice a x with hm | hm
      · left
        rw [h, hm]
      · right
        rw [h, hm]
        exact List.mem_cons_self x rest
    · right
      exact List.mem_cons_of_mem x h

theorem countVotes_lookup (votes : List Vote) (rs : List Reconfig) :
    (cmapLookup (listCmp Reconfig.cmp) (countVotes votes) rs).getD 0 = advocates votes rs := by
  have aux : ∀ (vs : List Vote) (acc : List (List Reconfig × Nat)) (rs : List Reconfig),
      (cmapLookup (listCmp Reconfig.cmp)
        (vs.foldl (fun count v =>
          let key := csetOf Reconfig.cmp (v.reconfigs.map (fun p => p.2))
          let c := (cmapLookup (listCmp Reconfig.cmp) count key).getD 0
          cmapInsert (listCmp Reconfig.cmp) count key (c + 1)) acc) rs).getD 0
        = (cmapLookup (listCmp Reconfig.cmp) acc rs).getD 0 + advocates vs rs := by
    intro vs
    induction vs with
    | nil =>
      intro acc rs
      simp [advocates]
    | cons v rest ih =>
      intro acc rs
      simp only [List.foldl_cons]
      rw [ih]
      unfold advocates
      simp only [List.filter_cons]
      by_cases hk : csetOf Reconfig.cmp (v.reconfigs.map (fun p => p.2)) = rs
      · rw [hk, rs_cmapLookup_insert_self]
        simp [advocates, List.filter_cons, hk]
        omega
      · have hk' : ¬ rs = csetOf Reconfig.cmp (v.reconfigs.map (fun p => p.2)) :=
          fun h => hk h.symm
        rw [rs_cmapLookup_insert_ne _ _ _ _ hk']
        simp [advocates, List.filter_cons, hk]
  unfold countVotes
  rw [aux]
  simp [cmapLookup]

theorem countVotes_sorted (votes : List Vote) :
    (countVotes votes).Pairwise (fun a b => listCmp Reconfig.cmp a.1 b.1 = .lt) := by
  have aux : ∀ (vs : List Vote) (acc : List (List Reconfig × Nat)),
      acc.Pairwise (fun a b => listCmp Reconfig.cmp a.1 b.1 = .lt) →
      (vs.foldl (fun count v =>
        let key := csetOf Reconfig.cmp (v.reconfigs.map (fun p => p.2))
        let c := (cmapLookup (listCmp Reconfig.cmp) count key).getD 0
        cmapInsert (listCmp Reconfig.cmp) count key (c + 1)) acc).Pairwise
        (fun a b => listCmp Reconfig.cmp a.1 b.1 = .lt) := by
    intro vs
    induction vs with
    | nil => intro acc h; exact h
    | cons v rest ih =>
      intro acc h
      simp only [List.foldl_cons]
      exact ih _ (rs_cmapInsert_sorted _ _ _ h)
  exact aux votes [] (by simp)

/-- C7: the BRB supermajority test returns true iff 3·n > 2·N where N is the
size of members(gen); the membership engine's is_super_majority applies the
same strict two-thirds rule to the largest number of votes advocating one
reconfig set against the member-set size at the current generation. -/
theorem claim7_supermajority_rule {DtSt : Type} (s : BState DtSt) (n : Nat)
    (gen : Generation) (mems : List Actor) (b : Bool)
    (ms : MState) (votes : List Vote) (mems' : List Actor) (b' : Bool) :
    (members s.membership gen = .ok mems → supermajority s n gen = .ok b →
      (b = true ↔ 3 * n > 2 * mems.length))
    ∧ (members ms ms.gen = .ok mems' → isSuperMajority ms votes = .ok b' →
      (b' = true ↔ ∃ rs, 3 * advocates votes rs > 2 * mems'.length)) := by
  constructor
  · intro hm hsm
    unfold supermajority at hsm
    rw [hm] at hsm
    simp only [Except.ok.injEq] at hsm
    subst hsm
    simp only [decide_eq_true_eq]
    omega
  · intro hm hsm
    unfold isSuperMajority at hsm
    rw [hm] at hsm
    simp only [Except.ok.injEq] at hsm
    subst hsm
    simp only [decide_eq_true_eq]
    constructor
    · intro hgt
      rcases foldl_max_choice ((countVotes votes).map (fun e => e.2)) 0 with h0 | hmem
      · rw [h0] at hgt
        omega
      · rw [List.mem_map] at hmem
        obtain ⟨e, he, hev⟩ := hmem
        refine ⟨e.1, ?_⟩
        have hl : cmapLookup (listCmp Reconfig.cmp) (countVotes votes) e.1 = some e.2 := by
          exact rs_cmapLookup_of_mem _ _ _ (countVotes_sorted votes) (by simpa using he)
        have : advocates votes e.1 = e.2 := by
          rw [← countVotes_lookup, hl]
          rfl
        rw [this, hev]
        exact hgt
    · intro hex
      obtain ⟨rs, hrs⟩ := hex
      rw [← countVotes_lookup] at hrs
      rcases hl : cmapLookup (listCmp Reconfig.cmp) (countVotes votes) rs with _ | nn
      · rw [hl] at hrs
        simp at hrs
      · rw [hl] at hrs
        simp only [Option.getD_some] at hrs
        have hv : nn ∈ ((countVotes votes).map (fun e => e.2)) := by
          simpa using rs_cmapLookup_mem_values _ _ _ hl
        have := foldl_max_of_mem _ 0 _ hv
        omega

/-- C7 witness: concrete instances of both supermajority rules. -/
theorem claim7_witness :
    (true = true ↔ 3 * 3 > 2 * ([0, 1, 2] : List Actor).length)
    ∧ (false = true ↔ ∃ rs, 3 * advocates [] rs > 2 * ([0, 1, 2] : List Actor).length) :=
  ⟨(claim7_supermajority_rule sA 3 0 [0, 1, 2] true mA [] [0, 1, 2] false).1 rfl rfl,
   (claim7_supermajority_rule sA 3 0 [0, 1, 2] true mA [] [0, 1, 2] false).2 rfl rfl⟩

/-- C9: proposing or validating Reconfig::Join(actor) fails with
MembersAtCapacity whenever the member set at the current generation already has
7 members and the actor is not already a member; an actor that is already a
member fails first with JoinRequestForExistingMember. -/
theorem claim9_join_capacity (s : MState) (a : Actor) (mems : List Actor)
    (encBG : Ballot → Generation → Nat)
    (hm : members s s.gen = .ok mems) :
    (a ∈ mems → validateReconfig s (.join a) = .error (.joinRequestForExistingMember a mems))
    ∧ (¬ a ∈ mems → SOFT_MAX_MEMBERS ≤ mems.length →
        validateReconfig s (.join a) = .error (.membersAtCapacity mems))
    ∧ (s.votes = [] → s.pending_gen = s.gen → s.id ∈ mems → ¬ a ∈ mems →
        SOFT_MAX_MEMBERS ≤ mems.length →
        propose encBG s (.join a) = (s, .error (.membersAtCapacity mems))) := by
  refine ⟨?_, ?_, ?_⟩
  · intro ha
    simp [validateReconfig, hm, ha]
  · intro ha hcap
    simp [validateReconfig, hm, ha, hcap]
  · intro hv hpg hid ha hcap
    unfold propose
    have hval : validateVote encBG s (buildVote encBG s (s.gen + 1) (.propose (.join a)))
        = .error (.membersAtCapacity mems) := by
      unfold buildVote
      unfold validateVote
      rw [hm]
      simp only [not_true_eq_false, if_false, hid, not_false_eq_true, if_true]
      rw [hv]
      simp only [mapLookup]
      unfold validateVoteTail
      rw [if_pos hpg]
      unfold validateBallot
      simp [validateReconfig, hm, ha, hcap]
    simp only [hval]

/-- C9 witness: at the 7-member cap, both validate_reconfig and propose reject
a fresh Join with MembersAtCapacity. -/
theorem claim9_witness :
    validateReconfig mB7 (.join 9)
        = .error (.membersAtCapacity [0, 1, 2, 3, 4, 5, 6])
    ∧ propose encBG0 mB7 (.join 9)
        = (mB7, .error (.membersAtCapacity [0, 1, 2, 3, 4, 5, 6])) :=
  ⟨(claim9_join_capacity mB7 9 [0, 1, 2, 3, 4, 5, 6] encBG0 rfl).2.1 (by decide) (by decide),
   (claim9_join_capacity mB7 9 [0, 1, 2, 3, 4, 5, 6] encBG0 rfl).2.2 rfl rfl
     (by decide) (by decide) (by decide)⟩

theorem membersLoop_error_of_not_mem (forced : List (Generation × List Reconfig))
    (hist : List (Generation × Vote)) (gen : Generation)
    (h : ∀ e ∈ hist, ¬ e.1 = gen) :
    ∀ ms, ∃ err, membersLoop forced hist gen ms = .error err := by
  induction hist with
  | nil =>
    intro ms
    exact ⟨.invalidGeneration gen, rfl⟩
  | cons e rest ih =>
    intro ms
    obtain ⟨hg, vote⟩ := e
    obtain ⟨vg, vb, va, vsg⟩ := vote
    cases vb with
    | propose r => exact ⟨_, rfl⟩
    | merge vs => exact ⟨_, rfl⟩
    | superMajority vs =>
      have hne : ¬ hg = gen := by
        have := h (hg, (vg, Ballot.superMajority vs, va, vsg)) (List.mem_cons_self _ _)
        exact this
      simp only [membersLoop, if_neg hne]
      exact ih (fun e he => h e (List.mem_cons_of_mem _ he)) _

theorem membersLoop_ok_of_mem (forced : List (Generation × List Reconfig))
    (hist : List (Generation × Vote)) (gen : Generation)
    (hmem : ∃ e ∈ hist, e.1 = gen)
    (hsm : ∀ e ∈ hist, e.2.isSuperMajorityBallot = true) :
    ∀ ms, ∃ m, membersLoop forced hist gen ms = .ok m := by
  induction hist with
  | nil => simp at hmem
  | cons e rest ih =>
    intro ms
    obtain ⟨hg, vote⟩ := e
    obtain ⟨vg, vb, va, vsg⟩ := vote
    cases vb with
    | propose r =>
      have := hsm (hg, (vg, Ballot.propose r, va, vsg)) (List.mem_cons_self _ _)
      simp [Vote.isSuperMajorityBallot] at this
    | merge vs =>
      have := hsm (hg, (vg, Ballot.merge vs, va, vsg)) (List.mem_cons_self _ _)
      simp [Vote.isSuperMajorityBallot] at this
    | superMajority vs =>
      by_cases hg_eq : hg = gen
      · simp only [membersLoop, if_pos hg_eq]
        exact ⟨_, rfl⟩
      · simp only [membersLoop, if_neg hg_eq]
        have hmem' : ∃ e ∈ rest, e.1 = gen := by
          obtain ⟨e, he, hegen⟩ := hmem
          rcases List.mem_cons.1 he with he | he
          · exfalso
            rw [he] at hegen
            exact hg_eq hegen
          · exact ⟨e, he, hegen⟩
        exact ih hmem' (fun e he => hsm e (List.mem_cons_of_mem _ he)) _

/-- C8 counterexample: members(0) succeeds on the default state even though
generation 0 has no entry in history, refuting the unconditional failure
clause of the claim. -/
theorem claim8_counterexample :
    members (initM 0) 0 = .ok [] ∧ (initM 0).history = [] :=
  ⟨rfl, rfl⟩

/-- C8 (amended): members(gen) replays forced_reconfigs and the SuperMajority
history from generation 0 upward; a nonzero generation with no history entry
always fails; generation 0 always succeeds; a generation with a history entry
succeeds when every history entry is a SuperMajority ballot. -/
theorem claim8_members_replay (s : MState) (gen : Generation) :
    (¬ gen = 0 → (∀ e ∈ s.history, ¬ e.1 = gen) → ∃ err, members s gen = .error err)
    ∧ (∃ m, members s 0 = .ok m)
    ∧ ((∃ e ∈ s.history, e.1 = gen) →
        (∀ e ∈ s.history, e.2.isSuperMajorityBallot = true) →
        ∃ m, members s gen = .ok m) := by
  refine ⟨?_, ?_, ?_⟩
  · intro hgen hmem
    unfold members
    rw [if_neg hgen]
    exact membersLoop_error_of_not_mem _ _ _ hmem _
  · unfold members
    rw [if_pos rfl]
    exact ⟨_, rfl⟩
  · intro hmem hsm
    by_cases hgen : gen = 0
    · subst hgen
      unfold members
      rw [if_pos rfl]
      exact ⟨_, rfl⟩
    · unfold members
      rw [if_neg hgen]
      exact membersLoop_ok_of_mem _ _ _ hmem hsm _

/-- C8 witness: generation 1 with empty history fails; a state whose history
commits generation 1 with a SuperMajority vote succeeds. -/
theorem claim8_witness :
    (∃ err, members (initM 0) 1 = .error err) ∧ (∃ m, members mH 1 = .ok m) :=
  ⟨(claim8_members_replay (initM 0) 1).1 (by decide) (by simp [initM]),
   (claim8_members_replay mH 1).2.2 ⟨(1, voteSM), by simp [mH], rfl⟩
     (by simp [mH, voteSM, Vote.isSuperMajorityBallot])⟩

/-- C4 counterexample: exec_op takes &self and does not change any state, so a
second exec_op before any packet is handled produces a msg with the same dot
counter 1, not counter 2 as the claim requires. -/
theorem claim4_counterexample :
    exec_op encPayload0 sA 10 = .ok
      [Packet.mk 0 0 (.brb (.requestValidation (Msg.mk 0 10 (Dot.mk 0 1)))) (0, 0),
       Packet.mk 0 1 (.brb (.requestValidation (Msg.mk 0 10 (Dot.mk 0 1)))) (0, 0),
       Packet.mk 0 2 (.brb (.requestValidation (Msg.mk 0 10 (Dot.mk 0 1)))) (0, 0)]
    ∧ exec_op encPayload0 sA 11 = .ok
      [Packet.mk 0 0 (.brb (.requestValidation (Msg.mk 0 11 (Dot.mk 0 1)))) (0, 0),
       Packet.mk 0 1 (.brb (.requestValidation (Msg.mk 0 11 (Dot.mk 0 1)))) (0, 0),
       Packet.mk 0 2 (.brb (.requestValidation (Msg.mk 0 11 (Dot.mk 0 1)))) (0, 0)]
    ∧ ¬ ((Dot.mk 0 1).counter = (Dot.mk 0 1).counter + 1) :=
  ⟨rfl, rfl, by decide⟩

/-- C4 (amended): exec_op does not change the process state (it takes &self),
and every RequestValidation it emits carries dot received.inc(self); hence a
second exec_op called before any packet is handled produces a msg with the
same dot counter as the first, and received advances only when a packet is
handled. -/
theorem claim4_exec_op_pipelining {DtSt : Type} (encPayload : Payload → Nat)
    (s : BState DtSt) (op op' : Nat) (ps ps' : List Packet)
    (h : exec_op encPayload s op = .ok ps)
    (h' : exec_op encPayload s op' = .ok ps') :
    (∀ p ∈ ps, p.payload
        = .brb (.requestValidation (Msg.mk s.membership.gen op (s.received.inc s.actor))))
    ∧ (∀ p ∈ ps', p.payload
        = .brb (.requestValidation (Msg.mk s.membership.gen op' (s.received.inc s.actor)))) := by
  unfold exec_op at h h'
  rcases hp : peers s with e | mems <;> rw [hp] at h h'
  · exact absurd h (by simp)
  · simp only [Except.ok.injEq] at h h'
    subst h
    subst h'
    constructor
    · intro p hp'
      unfold broadcast at hp'
      rw [List.mem_map] at hp'
      obtain ⟨t, _, rfl⟩ := hp'
      rfl
    · intro p hp'
      unfold broadcast at hp'
      rw [List.mem_map] at hp'
      obtain ⟨t, _, rfl⟩ := hp'
      rfl

/-- C4 witness: the amended claim evaluated at the concrete three-member
process, on the packet addressed to peer 1. -/
theorem claim4_witness :
    (Packet.mk 0 1 (.brb (.requestValidation (Msg.mk 0 10 (Dot.mk 0 1)))) ((0 : Nat), (0 : Nat))).payload
      = .brb (.requestValidation (Msg.mk sA.membership.gen 10 (sA.received.inc sA.actor))) :=
  (claim4_exec_op_pipelining encPayload0 sA 10 11
    [Packet.mk 0 0 (.brb (.requestValidation (Msg.mk 0 10 (Dot.mk 0 1)))) (0, 0),
     Packet.mk 0 1 (.brb (.requestValidation (Msg.mk 0 10 (Dot.mk 0 1)))) (0, 0),
     Packet.mk 0 2 (.brb (.requestValidation (Msg.mk 0 10 (Dot.mk 0 1)))) (0, 0)]
    [Packet.mk 0 0 (.brb (.requestValidation (Msg.mk 0 11 (Dot.mk 0 1)))) (0, 0),
     Packet.mk 0 1 (.brb (.requestValidation (Msg.mk 0 11 (Dot.mk 0 1)))) (0, 0),
     Packet.mk 0 2 (.brb (.requestValidation (Msg.mk 0 11 (Dot.mk 0 1)))) (0, 0)]
    rfl rfl).1 _ (by simp)

/-- C1: a RequestValidation is accepted only if the packet source equals the
dot actor, the dot is the next received dot, the dot is the next delivered dot,
the generation matches, the source is a voting member, and the data type
validates the op; the checks run in this order with the errors
PacketSourceIsNotDot, MsgDotNotTheNextDot, SourceAlreadyHasPendingMsg,
MessageFromDifferentGeneration, SourceIsNotVotingMember and
DataTypeFailedValidation; in particular a dot equal to received.inc(source)
but equal to delivered.inc(source) + 1 is rejected with
SourceAlreadyHasPendingMsg. -/
theorem claim1_requestValidation_order {DtSt : Type}
    (dtValidate : DtSt → Actor → Nat → Bool) (dtApply : DtSt → Nat → DtSt)
    (encBG : Ballot → Generation → Nat) (encMsg : Msg → Nat)
    (encPayload : Payload → Nat)
    (s : BState DtSt) (frm : Actor) (msg : Msg) :
    (∀ pkt : Packet, ∀ out, pkt.payload = .brb (.requestValidation msg) →
        pkt.source = frm →
        (handle_packet dtValidate dtApply encBG encMsg encPayload s pkt).2 = .ok out →
        validate_brb_op dtValidate encMsg s frm (.requestValidation msg) = .ok ())
    ∧ (validate_brb_op dtValidate encMsg s frm (.requestValidation msg) = .ok () →
        frm = msg.dot.actor ∧ msg.dot = s.received.inc frm ∧
        msg.dot = s.delivered.inc frm ∧ msg.gen = s.membership.gen ∧
        (∃ mems, members s.membership s.membership.gen = .ok mems ∧ frm ∈ mems) ∧
        dtValidate s.dt frm msg.op = true)
    ∧ (¬ frm = msg.dot.actor →
        validate_brb_op dtValidate encMsg s frm (.requestValidation msg)
          = .error (.validation (.packetSourceIsNotDot frm msg.dot)))
    ∧ (frm = msg.dot.actor → ¬ msg.dot = s.received.inc frm →
        validate_brb_op dtValidate encMsg s frm (.requestValidation msg)
          = .error (.validation (.msgDotNotTheNextDot msg.dot (s.received.inc frm))))
    ∧ (frm = msg.dot.actor → msg.dot = s.received.inc frm →
        ¬ msg.dot = s.delivered.inc frm →
        validate_brb_op dtValidate encMsg s frm (.requestValidation msg)
          = .error (.validation (.sourceAlreadyHasPendingMsg msg.dot (s.delivered.inc frm))))
    ∧ (frm = msg.dot.actor → msg.dot = s.received.inc frm →
        msg.dot = s.delivered.inc frm → ¬ msg.gen = s.membership.gen →
        validate_brb_op dtValidate encMsg s frm (.requestValidation msg)
          = .error (.validation (.messageFromDifferentGeneration msg.gen s.membership.gen)))
    ∧ (∀ mems, frm = msg.dot.actor → msg.dot = s.received.inc frm →
        msg.dot = s.delivered.inc frm → msg.gen = s.membership.gen →
        members s.membership s.membership.gen = .ok mems → ¬ frm ∈ mems →
        validate_brb_op dtValidate encMsg s frm (.requestValidation msg)
          = .error (.validation (.sourceIsNotVotingMember frm mems)))
    ∧ (∀ mems, frm = msg.dot.actor → msg.dot = s.received.inc frm →
        msg.dot = s.delivered.inc frm → msg.gen = s.membership.gen →
        members s.membership s.membership.gen = .ok mems → frm ∈ mems →
        ¬ dtValidate s.dt frm msg.op = true →
        validate_brb_op dtValidate encMsg s frm (.requestValidation msg)
          = .error (.validation .dataTypeFailedValidation))
    ∧ (msg.dot = s.received.inc frm →
        msg.dot.counter = (s.delivered.inc frm).counter + 1 →
        validate_brb_op dtValidate encMsg s frm (.requestValidation msg)
          = .error (.validation (.sourceAlreadyHasPendingMsg msg.dot (s.delivered.inc frm)))) := by
  refine ⟨?_, ?_, ?_, ?_, ?_, ?_, ?_, ?_, ?_⟩
  · intro pkt out hpay hsrc hok
    unfold handle_packet at hok
    rcases hv : validate_packet dtValidate encMsg encPayload s pkt with e | u
    · rw [hv] at hok
      exact absurd hok (by simp)
    · unfold validate_packet at hv
      by_cases hsig : ¬ pkt.sig = (pkt.source, encPayload pkt.payload)
      · rw [if_pos hsig] at hv
        exact absurd hv (by simp)
      · rw [if_neg hsig] at hv
        rw [hpay, hsrc] at hv
        unfold validate_payload at hv
        cases u
        exact hv
  · intro hok
    simp only [validate_brb_op] at hok
    by_cases h1 : frm = msg.dot.actor
    case neg => rw [if_pos h1] at hok; exact absurd hok (by simp)
    rw [if_neg (not_not_intro h1)] at hok
    by_cases h2 : msg.dot = s.received.inc frm
    case neg => rw [if_pos h2] at hok; exact absurd hok (by simp)
    rw [if_neg (not_not_intro h2)] at hok
    by_cases h3 : msg.dot = s.delivered.inc frm
    case neg => rw [if_pos h3] at hok; exact absurd hok (by simp)
    rw [if_neg (not_not_intro h3)] at hok
    by_cases h4 : msg.gen = s.membership.gen
    case neg => rw [if_pos h4] at hok; exact absurd hok (by simp)
    rw [if_neg (not_not_intro h4)] at hok
    rcases hm : members s.membership s.membership.gen with e | mems <;> simp only [hm] at hok
    · exact absurd hok (by simp)
    · by_cases h5 : frm ∈ mems
      case neg => rw [if_pos h5] at hok; exact absurd hok (by simp)
      rw [if_neg (not_not_intro h5)] at hok
      by_cases h6 : dtValidate s.dt frm msg.op = true
      case neg =>
        rw [if_pos (by simpa using h6)] at hok
        exact absurd hok (by simp)
      exact ⟨h1, h2, h3, h4, ⟨mems, rfl, h5⟩, h6⟩
  · intro h1
    simp only [validate_brb_op]
    rw [if_pos h1]
  · intro h1 h2
    simp only [validate_brb_op]
    rw [if_neg (not_not_intro h1), if_pos h2]
  · intro h1 h2 h3
    simp only [validate_brb_op]
    rw [if_neg (not_not_intro h1), if_neg (not_not_intro h2), if_pos h3]
  · intro h1 h2 h3 h4
    simp only [validate_brb_op]
    rw [if_neg (not_not_intro h1), if_neg (not_not_intro h2),
      if_neg (not_not_intro h3), if_pos h4]
  · intro mems h1 h2 h3 h4 hm h5
    simp only [validate_brb_op]
    rw [if_neg (not_not_intro h1), if_neg (not_not_intro h2),
      if_neg (not_not_intro h3), if_neg (not_not_intro h4)]
    simp only [hm]
    rw [if_pos h5]
  · intro mems h1 h2 h3 h4 hm h5 h6
    simp only [validate_brb_op]
    rw [if_neg (not_not_intro h1), if_neg (not_not_intro h2),
      if_neg (not_not_intro h3), if_neg (not_not_intro h4)]
    simp only [hm]
    rw [if_neg (not_not_intro h5), if_pos (by simpa using h6)]
  · intro h2 hc
    have h1 : frm = msg.dot.actor := by
      rw [h2]
      rfl
    have h3 : ¬ msg.dot = s.delivered.inc frm := by
      intro hd
      rw [hd] at hc
      omega
    simp only [validate_brb_op]
    rw [if_neg (not_not_intro h1), if_neg (not_not_intro h2), if_pos h3]

/-- C1 witness: a pipelined RequestValidation whose dot is the next received
dot but one past the next delivered dot is rejected with
SourceAlreadyHasPendingMsg. -/
theorem claim1_witness :
    validate_brb_op dtValidate0 encMsg0 sC1 1 (.requestValidation (Msg.mk 0 7 (Dot.mk 1 2)))
      = .error (.validation (.sourceAlreadyHasPendingMsg (Dot.mk 1 2) (Dot.mk 1 1))) :=
  (claim1_requestValidation_order dtValidate0 dtApply0 encBG0 encMsg0 encPayload0 sC1 1
    (Msg.mk 0 7 (Dot.mk 1 2))).2.2.2.2.2.2.2.2 rfl rfl

/-- C6: a ProofOfAgreement is accepted only if the dot is the next dot to be
delivered for its source, the proof size is a supermajority at msg.gen, every
signer is a member at msg.gen and every signature verifies over msg; the
checks run in this order, so a proof with a non-member signer and a tampered
signature reports ProofContainsSignaturesFromNonMembers. -/
theorem claim6_proof_validation_order {DtSt : Type}
    (dtValidate : DtSt → Actor → Nat → Bool) (encMsg : Msg → Nat)
    (s : BState DtSt) (frm : Actor) (msg : Msg) (proof : List (Actor × Sig))
    (mems : List Actor)
    (hm : members s.membership msg.gen = .ok mems) :
    (validate_brb_op dtValidate encMsg s frm (.proofOfAgreement msg proof) = .ok () →
      s.delivered.inc msg.dot.actor = msg.dot ∧
      proof.length * 3 > mems.length * 2 ∧
      (∀ e ∈ proof, e.1 ∈ mems) ∧ (∀ e ∈ proof, e.2 = (e.1, encMsg msg)))
    ∧ (¬ s.delivered.inc msg.dot.actor = msg.dot →
        validate_brb_op dtValidate encMsg s frm (.proofOfAgreement msg proof)
          = .error (.validation
              (.msgDotNotNextDotToBeDelivered msg.dot (s.delivered.inc msg.dot.actor))))
    ∧ (s.delivered.inc msg.dot.actor = msg.dot →
        ¬ proof.length * 3 > mems.length * 2 →
        validate_brb_op dtValidate encMsg s frm (.proofOfAgreement msg proof)
          = .error (.validation .notEnoughSignaturesToFormQuorum))
    ∧ (s.delivered.inc msg.dot.actor = msg.dot →
        proof.length * 3 > mems.length * 2 →
        ¬ (∀ e ∈ proof, e.1 ∈ mems) →
        validate_brb_op dtValidate encMsg s frm (.proofOfAgreement msg proof)
          = .error (.validation .proofContainsSignaturesFromNonMembers))
    ∧ (s.delivered.inc msg.dot.actor = msg.dot →
        proof.length * 3 > mems.length * 2 →
        (∀ e ∈ proof, e.1 ∈ mems) →
        ¬ (∀ e ∈ proof, e.2 = (e.1, encMsg msg)) →
        validate_brb_op dtValidate encMsg s frm (.proofOfAgreement msg proof)
          = .error (.validation .proofContainsInvalidSignatures)) := by
  have hsm : supermajority s proof.length msg.gen
      = .ok (decide (proof.length * 3 > mems.length * 2)) := by
    unfold supermajority
    rw [hm]
  refine ⟨?_, ?_, ?_, ?_, ?_⟩
  · intro hok
    simp only [validate_brb_op, hm, hsm] at hok
    by_cases h1 : s.delivered.inc msg.dot.actor = msg.dot
    case neg => rw [if_pos h1] at hok; exact absurd hok (by simp)
    rw [if_neg (not_not_intro h1)] at hok
    by_cases h2 : proof.length * 3 > mems.length * 2
    case neg =>
      rw [if_pos (by simpa using h2)] at hok
      exact absurd hok (by simp)
    rw [if_neg (by simpa using h2)] at hok
    by_cases h3 : proof.all (fun e => decide (e.1 ∈ mems)) = true
    case neg => rw [if_pos h3] at hok; exact absurd hok (by simp)
    rw [if_neg (not_not_intro h3)] at hok
    by_cases h4 : proof.all (fun e => decide (e.2 = (e.1, encMsg msg))) = true
    case neg => rw [if_pos h4] at hok; exact absurd hok (by simp)
    refine ⟨h1, h2, ?_, ?_⟩
    · intro e he
      have := List.all_eq_true.1 h3 e he
      simpa using this
    · intro e he
      have := List.all_eq_true.1 h4 e he
      simpa using this
  · intro h1
    simp only [validate_brb_op, hm, hsm]
    rw [if_pos h1]
  · intro h1 h2
    simp only [validate_brb_op, hm, hsm]
    rw [if_neg (not_not_intro h1), if_pos (by simpa using h2)]
  · intro h1 h2 h3
    have h3' : ¬ proof.all (fun e => decide (e.1 ∈ mems)) = true := by
      intro hall
      exact h3 (fun e he => by simpa using List.all_eq_true.1 hall e he)
    simp only [validate_brb_op, hm, hsm]
    rw [if_neg (not_not_intro h1), if_neg (by simpa using h2), if_pos h3']
  · intro h1 h2 h3 h4
    have h3' : proof.all (fun e => decide (e.1 ∈ mems)) = true :=
      List.all_eq_true.2 (fun e he => by simpa using h3 e he)
    have h4' : ¬ proof.all (fun e => decide (e.2 = (e.1, encMsg msg))) = true := by
      intro hall
      exact h4 (fun e he => by simpa using List.all_eq_true.1 hall e he)
    simp only [validate_brb_op, hm, hsm]
    rw [if_neg (not_not_intro h1), if_neg (by simpa using h2),
      if_neg (not_not_intro h3'), if_pos h4']

/-- C6 witness: a proof containing both a non-member signer and a tampered
signature is rejected with ProofContainsSignaturesFromNonMembers. -/
theorem claim6_witness :
    validate_brb_op dtValidate0 encMsg0 sA 1
      (.proofOfAgreement (Msg.mk 0 3 (Dot.mk 1 1)) [(0, (0, 0)), (1, (1, 0)), (5, (5, 1))])
      = .error (.validation .proofContainsSignaturesFromNonMembers) :=
  (claim6_proof_validation_order dtValidate0 encMsg0 sA 1 (Msg.mk 0 3 (Dot.mk 1 1))
    [(0, (0, 0)), (1, (1, 0)), (5, (5, 1))] [0, 1, 2] rfl).2.2.2.1
    rfl (by decide) (by decide)

theorem process_sv_fst {DtSt : Type} (dtApply : DtSt → Nat → DtSt)
    (encMsg : Msg → Nat) (encPayload : Payload → Nat)
    (s : BState DtSt) (source : Actor) (msg : Msg) (sg : Sig) :
    (process_brb_op dtApply encMsg encPayload s source (.signedValidated msg sg)).1
      = { s with pending_proof := ppInsert s.pending_proof msg source sg } := by
  simp only [process_brb_op]
  split
  · rfl
  · split
    · rfl
    · split
      · split
        · rfl
        · rfl
      · rfl

theorem ppLookup_ppInsert_self (pp : List (Msg × List (Actor × Sig))) (m : Msg)
    (src : Actor) (sg : Sig) :
    ppLookup (ppInsert pp m src sg) m
      = some (mapInsert ((ppLookup pp m).getD []) src sg) := by
  induction pp with
  | nil => simp [ppInsert, ppLookup, mapInsert]
  | cons e rest ih =>
    obtain ⟨m0, v0⟩ := e
    by_cases h : m = m0
    · subst h
      simp [ppInsert, ppLookup]
    · simp [ppInsert, ppLookup, h, ih]

/-- C5: handling a validated SignedValidated from peer p records the signature
under key p in pending_proof[msg]; it broadcasts ProofOfAgreement to
members(msg.gen) plus itself exactly when the resulting count n is a
supermajority at msg.gen while n - 1 is not, and emits no packets otherwise. -/
theorem claim5_signed_validated {DtSt : Type} (dtApply : DtSt → Nat → DtSt)
    (encMsg : Msg → Nat) (encPayload : Payload → Nat)
    (s : BState DtSt) (source : Actor) (msg : Msg) (sg : Sig) (mems : List Actor)
    (hm : members s.membership msg.gen = .ok mems) :
    (process_brb_op dtApply encMsg encPayload s source (.signedValidated msg sg)).1
      = { s with pending_proof := ppInsert s.pending_proof msg source sg }
    ∧ ((3 * ((ppLookup (ppInsert s.pending_proof msg source sg) msg).getD []).length
          > 2 * mems.length
        ∧ ¬ 3 * (((ppLookup (ppInsert s.pending_proof msg source sg) msg).getD []).length - 1)
          > 2 * mems.length) →
        (process_brb_op dtApply encMsg encPayload s source (.signedValidated msg sg)).2
          = .ok (broadcast encPayload
              { s with pending_proof := ppInsert s.pending_proof msg source sg }
              (.brb (.proofOfAgreement msg
                ((ppLookup (ppInsert s.pending_proof msg source sg) msg).getD [])))
              (nsetInsert mems s.actor)))
    ∧ (¬ (3 * ((ppLookup (ppInsert s.pending_proof msg source sg) msg).getD []).length
          > 2 * mems.length
        ∧ ¬ 3 * (((ppLookup (ppInsert s.pending_proof msg source sg) msg).getD []).length - 1)
          > 2 * mems.length) →
        (process_brb_op dtApply encMsg encPayload s source (.signedValidated msg sg)).2
          = .ok []) := by
  have hmemb : ({ s with pending_proof := ppInsert s.pending_proof msg source sg }
      : BState DtSt).membership = s.membership := rfl
  have hsm : ∀ k, supermajority
      { s with pending_proof := ppInsert s.pending_proof msg source sg } k msg.gen
      = .ok (decide (k * 3 > mems.length * 2)) := by
    intro k
    unfold supermajority
    rw [hmemb, hm]
  refine ⟨process_sv_fst dtApply encMsg encPayload s source msg sg, ?_, ?_⟩
  · intro hcross
    simp only [process_brb_op, hsm, hmemb, hm]
    have hb1 : decide ((((ppLookup (ppInsert s.pending_proof msg source sg) msg).getD []).length) * 3
        > mems.length * 2) = true := by
      rw [decide_eq_true_eq]
      omega
    have hb2 : decide ((((ppLookup (ppInsert s.pending_proof msg source sg) msg).getD []).length - 1) * 3
        > mems.length * 2) = false := by
      rw [decide_eq_false_iff_not]
      omega
    simp [hb1, hb2]
    all_goals rfl
  · intro hcross
    simp only [process_brb_op, hsm, hmemb, hm]
    by_cases hb1 : (((ppLookup (ppInsert s.pending_proof msg source sg) msg).getD []).length) * 3
        > mems.length * 2
    · have hb2 : (((ppLookup (ppInsert s.pending_proof msg source sg) msg).getD []).length - 1) * 3
          > mems.length * 2 := by
        by_contra hb2
        exact hcross ⟨by omega, by omega⟩
      simp [hb1, hb2]
    · simp [hb1]

/-- C5 witness: the third distinct signature crosses the supermajority
threshold at a three-member generation and triggers the proof broadcast. -/
theorem claim5_witness :
    (process_brb_op dtApply0 encMsg0 encPayload0
        { sA with pending_proof := [(Msg.mk 0 4 (Dot.mk 0 1), [(0, (0, 0)), (2, (2, 0))])] }
        1 (.signedValidated (Msg.mk 0 4 (Dot.mk 0 1)) (1, 0))).2
      = .ok (broadcast encPayload0
          { sA with pending_proof := [(Msg.mk 0 4 (Dot.mk 0 1),
              [(0, (0, 0)), (1, (1, 0)), (2, (2, 0))])] }
          (.brb (.proofOfAgreement (Msg.mk 0 4 (Dot.mk 0 1))
            [(0, (0, 0)), (1, (1, 0)), (2, (2, 0))]))
          (nsetInsert [0, 1, 2] 0)) :=
  (claim5_signed_validated dtApply0 encMsg0 encPayload0
    { sA with pending_proof := [(Msg.mk 0 4 (Dot.mk 0 1), [(0, (0, 0)), (2, (2, 0))])] }
    1 (Msg.mk 0 4 (Dot.mk 0 1)) (1, 0) [0, 1, 2] rfl).2.1 (by decide)

/-- C10: pending_proof[msg] is keyed by signer, so a second SignedValidated
from a peer already present replaces that peer's entry and leaves the
signature count unchanged; repeated endorsements from one peer never increase
the supermajority count. -/
theorem claim10_distinct_signers {DtSt : Type} (dtApply : DtSt → Nat → DtSt)
    (encMsg : Msg → Nat) (encPayload : Payload → Nat)
    (s : BState DtSt) (source : Actor) (msg : Msg) (sg sg0 : Sig)
    (pm : List (Actor × Sig))
    (hpm : ppLookup s.pending_proof msg = some pm)
    (hs : pm.Pairwise (fun a b => a.1 < b.1))
    (hmem : mapLookup pm source = some sg0) :
    ppLookup (ppInsert s.pending_proof msg source sg) msg = some (mapInsert pm source sg)
    ∧ (mapInsert pm source sg).length = pm.length
    ∧ mapLookup (mapInsert pm source sg) source = some sg
    ∧ ((process_brb_op dtApply encMsg encPayload s source
          (.signedValidated msg sg)).1).pending_proof
        = ppInsert s.pending_proof msg source sg := by
  refine ⟨?_, ?_, ?_, ?_⟩
  · rw [ppLookup_ppInsert_self, hpm]
    rfl
  · exact length_mapInsert_of_mem pm source sg hs (by simp [hmem])
  · exact mapLookup_insert_self pm source sg
  · rw [process_sv_fst]

/-- C10 witness: re-signing by peer 2 replaces its entry and keeps the count
at two. -/
theorem claim10_witness :
    ppLookup (ppInsert [(Msg.mk 0 4 (Dot.mk 0 1), [(0, (0, 0)), (2, (2, 0))])]
        (Msg.mk 0 4 (Dot.mk 0 1)) 2 (2, 9)) (Msg.mk 0 4 (Dot.mk 0 1))
      = some (mapInsert [(0, (0, 0)), (2, (2, 0))] 2 (2, 9))
    ∧ (mapInsert [(0, ((0 : Nat), (0 : Nat))), (2, (2, 0))] 2 (2, 9)).length
        = [(0, ((0 : Nat), (0 : Nat))), (2, (2, 0))].length
    ∧ mapLookup (mapInsert [(0, ((0 : Nat), (0 : Nat))), (2, (2, 0))] 2 (2, 9)) 2 = some (2, 9)
    ∧ ((process_brb_op dtApply0 encMsg0 encPayload0
          { sA with pending_proof := [(Msg.mk 0 4 (Dot.mk 0 1), [(0, (0, 0)), (2, (2, 0))])] }
          2 (.signedValidated (Msg.mk 0 4 (Dot.mk 0 1)) (2, 9))).1).pending_proof
        = ppInsert [(Msg.mk 0 4 (Dot.mk 0 1), [(0, (0, 0)), (2, (2, 0))])]
            (Msg.mk 0 4 (Dot.mk 0 1)) 2 (2, 9) :=
  claim10_distinct_signers dtApply0 encMsg0 encPayload0
    { sA with pending_proof := [(Msg.mk 0 4 (Dot.mk 0 1), [(0, (0, 0)), (2, (2, 0))])] }
    2 (Msg.mk 0 4 (Dot.mk 0 1)) (2, 9) (2, 0) [(0, (0, 0)), (2, (2, 0))]
    rfl (by simp) rfl

theorem logVote_only_votes (s : MState) (v : Vote) :
    ∃ vs, logVote s v = { s with votes := vs } := by
  unfold logVote
  generalize v.unpackVotes = l
  induction l generalizing s with
  | nil => exact ⟨s.votes, rfl⟩
  | cons v' rest ih =>
    simp only [List.foldl_cons]
    rcases hl : mapLookup s.votes v'.voter with _ | existing
    · simp only [hl]
      obtain ⟨vs, hvs⟩ := ih { s with votes := mapInsert s.votes v'.voter v' }
      exact ⟨vs, hvs⟩
    · simp only [hl]
      by_cases hsup : Vote.supersedes v' existing = true
    
      · rw [if_pos hsup]
        obtain ⟨vs, hvs⟩ := ih { s with votes := mapInsert s.votes v'.voter v' }
        exact ⟨vs, hvs⟩
      · rw [if_neg hsup]
        exact ih s

theorem members_congr (s s' : MState) (g : Generation)
    (h1 : s'.forced_reconfigs = s.forced_reconfigs) (h2 : s'.history = s.history) :
    members s' g = members s g := by
  unfold members
  rw [h1, h2]

theorem validateVote_members (encBG : Ballot → Generation → Nat) (s : MState) (v : Vote)
    (h : validateVote encBG s v = .ok ()) : ∃ m, members s s.gen = .ok m := by
  obtain ⟨g, b, voter, sg⟩ := v
  simp only [validateVote] at h
  rcases hm : members s s.gen with e | m
  · rw [hm] at h
    simp at h
  · exact ⟨m, rfl⟩

theorem isSplitVote_ok (s : MState) (votes : List Vote) (m : List Actor)
    (hm : members s s.gen = .ok m) : ∃ b, isSplitVote s votes = .ok b := by
  unfold isSplitVote
  rw [hm]
  exact ⟨_, rfl⟩

theorem isSuperMajority_ok (s : MState) (votes : List Vote) (m : List Actor)
    (hm : members s s.gen = .ok m) : ∃ b, isSuperMajority s votes = .ok b := by
  unfold isSuperMajority
  rw [hm]
  exact ⟨_, rfl⟩

theorem isSMSM_ok (s : MState) (votes : List Vote) (m : List Actor)
    (hm : members s s.gen = .ok m) : ∃ b, isSMSM s votes = .ok b := by
  unfold isSMSM
  rw [hm]
  exact ⟨_, rfl⟩

theorem broadcastM_ok (s s' : MState) (v : Vote) (m : List Actor)
    (hm : members s s.gen = .ok m)
    (hf : s'.forced_reconfigs = s.forced_reconfigs) (hh : s'.history = s.history)
    (hg : s'.gen = s.gen) : ∃ msgs, broadcastM s' v = .ok msgs := by
  unfold broadcastM
  rw [hg, members_congr s s' s.gen hf hh, hm]
  exact ⟨_, rfl⟩

theorem castVote_snd_ok (s : MState) (v : Vote) (m : List Actor)
    (hm : members s s.gen = .ok m) : ∃ msgs, (castVote s v).2 = .ok msgs := by
  unfold castVote
  obtain ⟨vs, hvs⟩ := logVote_only_votes { s with pending_gen := v.gen } v
  simp only [hvs]
  exact broadcastM_ok s _ v m hm rfl rfl rfl

theorem handleVoteInner_ok (encBG : Ballot → Generation → Nat) (t : MState) (v : Vote)
    (m : List Actor) (hmt : members t t.gen = .ok m) :
    ∃ s' msgs, handleVoteInner encBG t v = (s', .ok msgs) := by
  unfold handleVoteInner
  obtain ⟨b1, h1⟩ := isSplitVote_ok t (votesSet t) m hmt
  simp only [h1]
  cases b1
  · obtain ⟨b2, h2⟩ := isSMSM_ok t (votesSet t) m hmt
    simp only [h2]
    cases b2
    · obtain ⟨b3, h3⟩ := isSuperMajority_ok t (votesSet t) m hmt
      simp only [h3]
      cases b3
      · by_cases hid : (mapLookup t.votes t.id).isNone
        · rw [if_pos hid]
          obtain ⟨msgs, hcv⟩ := castVote_snd_ok t (buildVote encBG t t.pending_gen v.ballot) m hmt
          exact ⟨_, msgs, Prod.ext rfl hcv⟩
        · rw [if_neg hid]
          exact ⟨t, [], rfl⟩
      · rcases hl : mapLookup t.votes t.id with _ | our_vote
        · simp only [hl]
          obtain ⟨msgs, hcv⟩ := castVote_snd_ok t
            (buildVote encBG t t.pending_gen (Ballot.simplify (.superMajority (votesSet t)))) m hmt
          exact ⟨_, msgs, Prod.ext rfl hcv⟩
        · simp only [hl]
          by_cases hcm : ((resolveVotes our_vote.unpackVotes).any
              (fun r => ¬ r ∈ resolveVotes (votesSet t))) = true
          · rw [if_pos hcm]
            exact ⟨t, [], rfl⟩
          · rw [if_neg hcm]
            by_cases hsb : our_vote.isSuperMajorityBallot = true
            · rw [if_pos hsb]
              exact ⟨t, [], rfl⟩
            · rw [if_neg hsb]
              obtain ⟨msgs, hcv⟩ := castVote_snd_ok t
                (buildVote encBG t t.pending_gen (Ballot.simplify (.superMajority (votesSet t)))) m hmt
              exact ⟨_, msgs, Prod.ext rfl hcv⟩
    · simp only [hmt]
      by_cases hid : t.id ∈ m
      · rw [if_pos hid]
        exact ⟨_, [], rfl⟩
      · rw [if_neg hid]
        obtain ⟨b4, h4⟩ := isSMSM_ok t v.unpackVotes m hmt
        simp only [h4]
        cases b4
        · exact ⟨t, [], rfl⟩
        · exact ⟨_, [], rfl⟩
  · rcases hl : mapLookup t.votes t.id with _ | our_vote
    · simp only [hl]
      obtain ⟨msgs, hcv⟩ := castVote_snd_ok t
        (buildVote encBG t t.pending_gen (Ballot.simplify (.merge (votesSet t)))) m hmt
      exact ⟨_, msgs, Prod.ext rfl hcv⟩
    · simp only [hl]
      by_cases heq : csetOf Reconfig.cmp (our_vote.reconfigs.map (fun p => p.2))
          = csetOf Reconfig.cmp
              ((buildVote encBG t t.pending_gen
                (Ballot.simplify (.merge (votesSet t)))).reconfigs.map (fun p => p.2))
      · rw [if_pos heq]
        exact ⟨t, [], rfl⟩
      · rw [if_neg heq]
        obtain ⟨msgs, hcv⟩ := castVote_snd_ok t
          (buildVote encBG t t.pending_gen (Ballot.simplify (.merge (votesSet t)))) m hmt
        exact ⟨_, msgs, Prod.ext rfl hcv⟩

theorem handleVote_error_state (encBG : Ballot → Generation → Nat) (s : MState) (v : Vote)
    (s' : MState) (e : MError)
    (h : handleVote encBG s v = (s', .error e)) : s' = s := by
  rcases hv : validateVote encBG s v with e0 | u
  · unfold handleVote at h
    simp only [hv] at h
    rw [Prod.mk.injEq] at h
    exact h.1.symm
  · cases u
    obtain ⟨m, hm⟩ := validateVote_members encBG s v hv
    have hmt : members ({ logVote s v with pending_gen := v.gen } : MState)
        ({ logVote s v with pending_gen := v.gen } : MState).gen = .ok m := by
      obtain ⟨vs, hvs⟩ := logVote_only_votes s v
      rw [hvs]
      show members { s with votes := vs, pending_gen := v.gen } s.gen = .ok m
      rw [members_congr s { s with votes := vs, pending_gen := v.gen } s.gen rfl rfl]
      exact hm
    obtain ⟨s'', msgs, hh⟩ := handleVoteInner_ok encBG _ v m hmt
    unfold handleVote at h
    simp only [hv] at h
    rw [hh] at h
    rw [Prod.mk.injEq] at h
    exact absurd h.2 (by simp)

theorem supermajority_error_shape {DtSt : Type} (s : BState DtSt) (n : Nat)
    (gen : Generation) (e : BrbError)
    (h : supermajority s n gen = .error e) : ∃ em, e = .membership em := by
  unfold supermajority at h
  rcases hm : members s.membership gen with e0 | m <;> simp only [hm] at h
  · rw [Except.error.injEq] at h
    exact ⟨e0, h.symm⟩
  · exact absurd h (by simp)

theorem process_sv_error_shape {DtSt : Type} (dtApply : DtSt → Nat → DtSt)
    (encMsg : Msg → Nat) (encPayload : Payload → Nat)
    (s : BState DtSt) (source : Actor) (msg : Msg) (sg : Sig)
    (s' : BState DtSt) (e : BrbError)
    (h : process_brb_op dtApply encMsg encPayload s source (.signedValidated msg sg)
      = (s', .error e)) :
    s' = { s with pending_proof := ppInsert s.pending_proof msg source sg }
    ∧ ∃ em, e = .membership em := by
  have hf := process_sv_fst dtApply encMsg encPayload s source msg sg
  rw [h] at hf
  refine ⟨hf, ?_⟩
  simp only [process_brb_op] at h
  split at h
  · rw [Prod.mk.injEq, Except.error.injEq] at h
    rename_i e1 heq
    obtain ⟨em, hem⟩ := supermajority_error_shape _ _ _ _ heq
    exact ⟨em, h.2 ▸ hem⟩
  · split at h
    · rw [Prod.mk.injEq, Except.error.injEq] at h
      rename_i e2 heq
      obtain ⟨em, hem⟩ := supermajority_error_shape _ _ _ _ heq
      exact ⟨em, h.2 ▸ hem⟩
    · split at h
      · split at h
        · rw [Prod.mk.injEq, Except.error.injEq] at h
          rename_i e3 heq
          exact ⟨e3, h.2.symm ▸ rfl⟩
        · rw [Prod.mk.injEq] at h
          exact absurd h.2 (by simp)
      · rw [Prod.mk.injEq] at h
        exact absurd h.2 (by simp)

/-- C2 counterexample: a correctly signed SignedValidated whose msg.gen has no
membership history entry makes handle_packet return an error after having
recorded the signature in pending_proof, so the state is not rolled back. -/
theorem claim2_counterexample :
    (handle_packet dtValidate0 dtApply0 encBG0 encMsg0 encPayload0 sC2 pktC2).2
      = .error (.membership (.invalidGeneration 1))
    ∧ (handle_packet dtValidate0 dtApply0 encBG0 encMsg0 encPayload0 sC2 pktC2).1.pending_proof
      = [(msgC2, [(1, (1, 0))])]
    ∧ sC2.pending_proof = [] :=
  ⟨rfl, rfl, rfl⟩

/-- C2 (amended): when handle_packet returns an error the state is exactly as
before the call and no packets are produced, except that a SignedValidated
whose msg.gen fails membership reconstruction first records the signature in
pending_proof and then surfaces the membership error. -/
theorem claim2_error_rollback {DtSt : Type}
    (dtValidate : DtSt → Actor → Nat → Bool) (dtApply : DtSt → Nat → DtSt)
    (encBG : Ballot → Generation → Nat) (encMsg : Msg → Nat)
    (encPayload : Payload → Nat)
    (s : BState DtSt) (p : Packet) (s' : BState DtSt) (e : BrbError)
    (h : handle_packet dtValidate dtApply encBG encMsg encPayload s p = (s', .error e)) :
    s' = s
    ∨ ∃ msg sg, p.payload = .brb (.signedValidated msg sg)
        ∧ s' = { s with pending_proof := ppInsert s.pending_proof msg p.source sg }
        ∧ ∃ em, e = .membership em := by
  unfold handle_packet at h
  rcases hv : validate_packet dtValidate encMsg encPayload s p with e0 | u
  · simp only [hv] at h
    rw [Prod.mk.injEq] at h
    exact .inl h.1.symm
  · cases u
    simp only [hv] at h
    unfold process_packet at h
    rcases hp : p.payload with ⟨g, d⟩ | op | vote
    · simp only [hp] at h
      rw [Prod.mk.injEq] at h
      exact absurd h.2 (by simp)
    · simp only [hp] at h
      cases op with
      | requestValidation msg =>
        simp only [process_brb_op] at h
        rw [Prod.mk.injEq] at h
        exact absurd h.2 (by simp)
      | signedValidated msg sg =>
        obtain ⟨hs1, hem⟩ := process_sv_error_shape dtApply encMsg encPayload s p.source msg sg s' e h
        exact .inr ⟨msg, sg, rfl, hs1, hem⟩
      | proofOfAgreement msg proof =>
        simp only [process_brb_op] at h
        rw [Prod.mk.injEq] at h
        exact absurd h.2 (by simp)
    · simp only [hp] at h
      rcases hh : handleVote encBG s.membership vote with ⟨m', res⟩
      simp only [hh] at h
      cases res with
      | error em =>
        rw [Prod.mk.injEq] at h
        have hms : m' = s.membership :=
          handleVote_error_state encBG s.membership vote m' em hh
        left
        rw [← h.1, hms]
      | ok vms =>
        rw [Prod.mk.injEq] at h
        exact absurd h.2 (by simp)

/-- C2 witness: the amended statement applied to the concrete packet whose
generation has no history entry. -/
theorem claim2_witness :
    ({ sC2 with pending_proof := [(msgC2, [(1, (1, 0))])] } : BState DtSt0) = sC2
    ∨ ∃ msg sg, pktC2.payload = .brb (.signedValidated msg sg)
        ∧ ({ sC2 with pending_proof := [(msgC2, [(1, (1, 0))])] } : BState DtSt0)
            = { sC2 with pending_proof := ppInsert sC2.pending_proof msg pktC2.source sg }
        ∧ ∃ em, (BrbError.membership (.invalidGeneration 1)) = .membership em :=
  claim2_error_rollback dtValidate0 dtApply0 encBG0 encMsg0 encPayload0 sC2 pktC2
    { sC2 with pending_proof := [(msgC2, [(1, (1, 0))])] }
    (.membership (.invalidGeneration 1)) rfl

theorem P3Inv_congr {DtSt : Type} (s s' : BState DtSt)
    (hd : s'.delivered = s.delivered)
    (hh : s'.history_from_source = s.history_from_source)
    (h : P3Inv s) : P3Inv s' := by
  intro a
  rw [hd, hh]
  exact h a

theorem validate_poa_dot {DtSt : Type} (dtValidate : DtSt → Actor → Nat → Bool)
    (encMsg : Msg → Nat) (s : BState DtSt) (frm : Actor) (msg : Msg)
    (proof : List (Actor × Sig))
    (h : validate_brb_op dtValidate encMsg s frm (.proofOfAgreement msg proof) = .ok ()) :
    s.delivered.inc msg.dot.actor = msg.dot := by
  simp only [validate_brb_op] at h
  rcases hm : members s.membership msg.gen with e | mems <;> simp only [hm] at h
  · exact absurd h (by simp)
  · by_cases h1 : s.delivered.inc msg.dot.actor = msg.dot
    · exact h1
    · rw [if_pos h1] at h
      exact absurd h (by simp)

theorem P3Inv_poa {DtSt : Type} (s : BState DtSt) (msg : Msg)
    (proof : List (Actor × Sig)) (r' : VClock)
    (pp' : List (Msg × List (Actor × Sig))) (dt' : DtSt)
    (hInv : P3Inv s) (hdot : s.delivered.inc msg.dot.actor = msg.dot) :
    P3Inv { s with received := r',
                   delivered := s.delivered.applyDot msg.dot,
                   history_from_source := hfsPush s.history_from_source msg.dot.actor (msg, proof),
                   pending_proof := pp', dt := dt' } := by
  have hcnt : msg.dot.counter = s.delivered.get msg.dot.actor + 1 := by
    conv_lhs => rw [← hdot]
    rfl
  intro a
  by_cases ha : a = msg.dot.actor
  · subst ha
    have hlk : mapLookup (hfsPush s.history_from_source msg.dot.actor (msg, proof)) msg.dot.actor
        = some ((mapLookup s.history_from_source msg.dot.actor).getD [] ++ [(msg, proof)]) := by
      unfold hfsPush
      exact mapLookup_insert_self _ _ _
    have hget : (s.delivered.applyDot msg.dot).get msg.dot.actor = msg.dot.counter := by
      have hlt : s.delivered.get msg.dot.actor < msg.dot.counter := by
        rw [hcnt]
        omega
      exact VClock.get_applyDot_self s.delivered msg.dot hlt
    simp only [hlk, Option.getD_some, List.map_append, List.length_append]
    obtain ⟨hc, hl⟩ := hInv msg.dot.actor
    constructor
    · rw [hc]
      have hcc : msg.dot.counter
          = ((mapLookup s.history_from_source msg.dot.actor).getD []).length + 1 := by
        rw [hcnt, hl]
      simp only [List.map_cons, List.map_nil, hcc, List.length_cons, List.length_nil]
      rw [List.range'_concat]
      simp [Nat.add_comm]
    · rw [hget, hcnt, hl]
      simp
  · have hlk : mapLookup (hfsPush s.history_from_source msg.dot.actor (msg, proof)) a
        = mapLookup s.history_from_source a := by
      unfold hfsPush
      exact mapLookup_insert_ne _ _ _ _ ha
    have hget : (s.delivered.applyDot msg.dot).get a = s.delivered.get a :=
      VClock.get_applyDot_ne s.delivered msg.dot a ha
    simp only [hlk, hget]
    exact hInv a

theorem P3Inv_handle_packet {DtSt : Type}
    (dtValidate : DtSt → Actor → Nat → Bool) (dtApply : DtSt → Nat → DtSt)
    (encBG : Ballot → Generation → Nat) (encMsg : Msg → Nat)
    (encPayload : Payload → Nat) (s : BState DtSt) (p : Packet)
    (hInv : P3Inv s) :
    P3Inv (handle_packet dtValidate dtApply encBG encMsg encPayload s p).1 := by
  unfold handle_packet
  rcases hv : validate_packet dtValidate encMsg encPayload s p with e | u
  · simp only
    exact hInv
  · cases u
    simp only
    unfold process_packet
    rcases hp : p.payload with ⟨g, d⟩ | op | vote
    · exact hInv
    · cases op with
      | requestValidation msg =>
        exact P3Inv_congr s _ rfl rfl hInv
      | signedValidated msg sg =>
        rw [process_sv_fst]
        exact P3Inv_congr s _ rfl rfl hInv
      | proofOfAgreement msg proof =>
        have hval : validate_brb_op dtValidate encMsg s p.source
            (.proofOfAgreement msg proof) = .ok () := by
          unfold validate_packet at hv
          by_cases hsig : ¬ p.sig = (p.source, encPayload p.payload)
          · rw [if_pos hsig] at hv
            exact absurd hv (by simp)
          · rw [if_neg hsig] at hv
            rw [hp] at hv
            unfold validate_payload at hv
            exact hv
        have hdot := validate_poa_dot dtValidate encMsg s p.source msg proof hval
        simp only [process_brb_op]
        exact P3Inv_poa s msg proof _ _ _ hInv hdot
    · rcases hh : handleVote encBG s.membership vote with ⟨m', res⟩
      simp only [hh]
      cases res
      · exact P3Inv_congr s _ rfl rfl hInv
      · exact P3Inv_congr s _ rfl rfl hInv

theorem request_membership_fst {DtSt : Type} (encBG : Ballot → Generation → Nat)
    (encPayload : Payload → Nat) (s : BState DtSt) (a : Actor) :
    ∃ m', (request_membership encBG encPayload s a).1 = { s with membership := m' } := by
  unfold request_membership
  rcases hpr : propose encBG s.membership (.join a) with ⟨m', res⟩
  simp only [hpr]
  cases res <;> exact ⟨m', rfl⟩

theorem kill_peer_fst {DtSt : Type} (encBG : Ballot → Generation → Nat)
    (encPayload : Payload → Nat) (s : BState DtSt) (a : Actor) :
    ∃ m', (kill_peer encBG encPayload s a).1 = { s with membership := m' } := by
  unfold kill_peer
  rcases hpr : propose encBG s.membership (.leave a) with ⟨m', res⟩
  simp only [hpr]
  cases res <;> exact ⟨m', rfl⟩

/-- C3: in every reachable state the counters recorded per source in
history_from_source are exactly 1, 2, 3, … with no gaps or duplicates, and
every handle_packet call preserves the invariant together with the
delivered-clock link (an entry is appended only when a validated
ProofOfAgreement carries the next delivered dot). -/
theorem claim3_per_source_total_order {DtSt : Type}
    (dtValidate : DtSt → Actor → Nat → Bool) (dtApply : DtSt → Nat → DtSt)
    (encBG : Ballot → Generation → Nat) (encMsg : Msg → Nat)
    (encPayload : Payload → Nat) (id : Actor) (dt0 : DtSt) (s : BState DtSt)
    (h : ReachableB dtValidate dtApply encBG encMsg encPayload id dt0 s) :
    (∀ a : Actor,
      ((mapLookup s.history_from_source a).getD []).map (fun e => e.1.dot.counter)
        = List.range' 1 ((mapLookup s.history_from_source a).getD []).length)
    ∧ ∀ (s0 : BState DtSt) (p : Packet), P3Inv s0 →
        P3Inv (handle_packet dtValidate dtApply encBG encMsg encPayload s0 p).1 := by
  have hInv : P3Inv s := by
    induction h with
    | refl =>
      intro a
      simp [initB, mapLookup, VClock.get]
    | tail hsteps hstep ih =>
      rename_i s1 s2
      cases hstep with
      | handle p =>
        exact P3Inv_handle_packet dtValidate dtApply encBG encMsg encPayload s1 p ih
      | reqMembership a =>
        obtain ⟨m', hm'⟩ := request_membership_fst encBG encPayload s1 a
        rw [hm']
        exact P3Inv_congr s1 _ rfl rfl ih
      | killPeer a =>
        obtain ⟨m', hm'⟩ := kill_peer_fst encBG encPayload s1 a
        rw [hm']
        exact P3Inv_congr s1 _ rfl rfl ih
      | forceJoinStep a =>
        exact P3Inv_congr s1 _ rfl rfl ih
      | forceLeaveStep a =>
        exact P3Inv_congr s1 _ rfl rfl ih
  refine ⟨fun a => (hInv a).1, fun s0 p h0 =>
    P3Inv_handle_packet dtValidate dtApply encBG encMsg encPayload s0 p h0⟩

/-- C3 witness: the invariant at the freshly initialized process, and
preservation applied to it for a concrete packet. -/
theorem claim3_witness :
    (((mapLookup (initB 0 ([] : DtSt0)).history_from_source 0).getD []).map
        (fun e => e.1.dot.counter)
      = List.range' 1 ((mapLookup (initB 0 ([] : DtSt0)).history_from_source 0).getD []).length) :=
  (claim3_per_source_total_order dtValidate0 dtApply0 encBG0 encMsg0 encPayload0 0 []
    (initB 0 ([] : DtSt0)) Relation.ReflTransGen.refl).1 0
